import Mathlib

/-!
Verification of the mockserver request-evaluation core.

A shallow embedding, in Lean 4, of the parts of the `mockserver` Go code
base that the specification's testable properties talk about:

* the state store (`ApplyStateful`, `src/unnamed/part_015`);
* the condition evaluator (`src/server/utils/evaluator.go`);
* the template engine (`ProcessTemplateJSON`);
* the JSON-schema validator (`src/server/utils/schema_validator.go`);
* filtering / sorting / pagination (`src/server/utils/filteredMockData.go`);
* the auth middleware (`src/unnamed/part_012`);
* delay / status resolution and the per-request pipeline
  (`src/server/console_ui.go`);
* config validation (`src/unnamed/part_007`, `src/server/utils.go`).

Go's dynamically typed JSON values (`interface{}` after `encoding/json`
decoding) are modelled by the sum type `JValue`; JSON numbers (Go
`float64`) are modelled as exact rationals, which agrees with Go on every
value the configuration language can denote exactly.  Go maps are
modelled as association lists (first binding wins on lookup); code whose
observable behaviour depends on Go's randomised map iteration order is
only relied upon where the iteration order cannot change the result.
External effects (the faker library, the wall clock, the regexp library
used for schema `pattern`) enter as explicit oracle parameters.
-/

namespace Mockserver

/-- A JSON-shaped dynamic value, as produced by `encoding/json` into
`interface{}`.  Numbers are exact rationals (Go stores `float64`). -/
inductive JValue where
  | vnull : JValue
  | vbool : Bool → JValue
  | vnum : ℚ → JValue
  | vstr : String → JValue
  | varr : List JValue → JValue
  | vobj : List (String × JValue) → JValue
  deriving Repr, BEq, Inhabited

/-- A collection record: Go `map[string]interface{}` as an association list. -/
abbrev Record := List (String × JValue)

/-- First-match lookup in an association list (Go map indexing). -/
def lookupKey {α : Type} (m : List (String × α)) (k : String) : Option α :=
  match m with
  | [] => none
  | (k', v) :: rest => if k' = k then some v else lookupKey rest k

/-- `strings.HasPrefix`. -/
def goStartsWith (s pre : String) : Bool :=
  pre.toList.isPrefixOf s.toList

/-- `strings.HasSuffix`. -/
def goEndsWith (s suf : String) : Bool :=
  suf.toList.reverse.isPrefixOf s.toList.reverse

/-- Go `strings.TrimPrefix`: drop `pre` when `s` starts with it (case-sensitive). -/
def goTrimPrefix (s pre : String) : String :=
  if goStartsWith s pre then (s.toList.drop pre.toList.length).asString else s

/-- Go `strings.TrimSuffix`. -/
def goTrimSuffix (s suf : String) : String :=
  if goEndsWith s suf then
    (s.toList.take (s.toList.length - suf.toList.length)).asString
  else s

/-- `strings.Split` on a non-empty separator, by fuel recursion (the fuel
is an upper bound on the number of characters, never exhausted by the
wrapper below). -/
def splitOnFuel (sep : List Char) : Nat → List Char → List Char → List String
  | 0, cs, cur => [(cur.reverse ++ cs).asString]
  | fuel + 1, cs, cur =>
      match cs with
      | [] => [cur.reverse.asString]
      | c :: rest =>
          if sep.isPrefixOf cs ∧ ¬ sep.isEmpty then
            cur.reverse.asString :: splitOnFuel sep fuel (cs.drop sep.length) []
          else splitOnFuel sep fuel rest (c :: cur)

/-- `strings.Split s sep` (our separators are never empty). -/
def goSplitOn (s sep : String) : List String :=
  splitOnFuel sep.toList (s.toList.length + 1) s.toList []

/-- Left-to-right non-overlapping replacement, by fuel recursion. -/
def replaceFuel (old new : List Char) : Nat → List Char → List Char
  | 0, cs => cs
  | fuel + 1, cs =>
      match cs with
      | [] => []
      | c :: rest =>
          if old.isPrefixOf cs ∧ ¬ old.isEmpty then
            new ++ replaceFuel old new fuel (cs.drop old.length)
          else c :: replaceFuel old new fuel rest

/-- `strings.ReplaceAll s old new` (our patterns are never empty). -/
def goReplaceAll (s old new : String) : String :=
  (replaceFuel old.toList new.toList (s.toList.length + 1) s.toList).asString

/-- Whitespace as trimmed by `strings.TrimSpace` (ASCII fragment). -/
def isGoSpace (c : Char) : Bool :=
  c = ' ' ∨ c = '\t' ∨ c = '\n' ∨ c = '\r'

/-- Go `strings.TrimSpace` (ASCII whitespace fragment of Unicode space). -/
def goTrimSpace (s : String) : String :=
  ((s.toList.dropWhile isGoSpace).reverse.dropWhile isGoSpace).reverse.asString

/-- Trim any of the characters of `cutset` from both ends
(`strings.Trim s cutset`). -/
def goTrimChars (s : String) (cutset : List Char) : String :=
  ((s.toList.dropWhile (cutset.contains ·)).reverse.dropWhile
      (cutset.contains ·)).reverse.asString

/-- ASCII lower-casing of one character (the fragment of case folding the
configuration language exercises). -/
def goLowerChar (c : Char) : Char :=
  if 'A' ≤ c ∧ c ≤ 'Z' then Char.ofNat (c.toNat + 32) else c

/-- ASCII `strings.ToLower`. -/
def goToLower (s : String) : String :=
  (s.toList.map goLowerChar).asString

/-- `strings.EqualFold` on the ASCII fragment. -/
def goEqualFold (a b : String) : Bool :=
  goToLower a = goToLower b

/-- List-of-chars infix search. -/
def charsContains (hay needle : List Char) : Bool :=
  match hay with
  | [] => needle.isEmpty
  | _ :: rest => needle.isPrefixOf hay || charsContains rest needle

/-- Go `strings.Contains`. -/
def goContains (s sub : String) : Bool :=
  charsContains s.toList sub.toList

/-- Render a natural number in decimal. -/
def natDigits (n : Nat) : String := toString n

/-- Decimal rendering of an integer. -/
def intDecimal (i : Int) : String := toString i

/-- Digits of the fractional part of `rem / den` (used to print the
shortest finite decimal expansion of a non-integral number). -/
def fracDigits (rem den : Nat) : Nat → Option String
  | 0 => none
  | fuel + 1 =>
      if rem = 0 then some "" else
        let rem10 := rem * 10
        match fracDigits (rem10 % den) den fuel with
        | some s => some (natDigits (rem10 / den) ++ s)
        | none => none

/-- `fmt.Sprint` of a number (Go `float64` under `%v`): integral values
print without a fractional part, finite decimals with their shortest
decimal expansion. -/
def goSprintNum (q : ℚ) : String :=
  if q.den = 1 then intDecimal q.num
  else
    let sign := if q.num < 0 then "-" else ""
    let n := q.num.natAbs
    match fracDigits (n % q.den) q.den 30 with
    | some ds => sign ++ natDigits (n / q.den) ++ "." ++ ds
    | none => sign ++ natDigits n ++ "/" ++ natDigits q.den

mutual

/-- `fmt.Sprint` / `fmt.Sprintf "%v"` of a decoded JSON value.  (Values
the configuration language can produce are covered exactly; maps print
in Go's sorted-key `map[...]` form.) -/
def goSprint : JValue → String
  | .vnull => "<nil>"
  | .vbool b => if b then "true" else "false"
  | .vnum q => goSprintNum q
  | .vstr s => s
  | .varr xs => "[" ++ String.intercalate " " (goSprintList xs) ++ "]"
  | .vobj fs =>
      let entries := (goSprintObj fs).mergeSort (fun a b => a.1 ≤ b.1)
      "map[" ++ String.intercalate " "
        (entries.map (fun p => p.1 ++ ":" ++ p.2)) ++ "]"

/-- Pointwise rendering of the elements of a JSON array. -/
def goSprintList : List JValue → List String
  | [] => []
  | v :: rest => goSprint v :: goSprintList rest

/-- Pointwise rendering of the entries of a JSON object. -/
def goSprintObj : List (String × JValue) → List (String × String)
  | [] => []
  | (k, v) :: rest => (k, goSprint v) :: goSprintObj rest

end

/-- `fmt.Sprint` of a possibly-missing map entry (`m[k]` on a missing key
yields the `nil` interface, which prints as `<nil>`). -/
def goSprintOpt : Option JValue → String
  | none => "<nil>"
  | some v => goSprint v

/-! ## State store (`ApplyStateful`, src/unnamed/part_015) -/

/-- The sentinel errors of the state store. -/
inductive StateError where
  | notFound   -- StateErrNotFound
  | conflict   -- StateErrConflict
  | badInput   -- StateErrBadInput
  | unknownAction (a : String)
  deriving Repr, BEq

/-- `StateContext`: the `ctx.State` sub-record populated by the stateful step. -/
structure StateContext where
  list : List Record := []
  item : Option Record := none
  created : Option Record := none
  updated : Option Record := none
  deriving Repr, BEq

/-- The per-request execution context (`EContext`).  Query, header and
path values are strings; the body is a decoded JSON object. -/
structure EContext where
  body : Record := []
  query : List (String × String) := []
  headers : List (String × String) := []
  path : List (String × String) := []
  state : Option StateContext := none
  deriving Repr, BEq

/-- `StatefulConfig`: collection name, action and id field. -/
structure StatefulConfig where
  collection : String
  action : String
  idField : String := ""
  deriving Repr, BEq

/-- The store: named collections of records (`map[string][]map[string]interface{}`;
a missing collection reads as the empty slice). -/
abbrev Store := List (String × List Record)

/-- Read a collection (`store.collections[name]`, `nil` reads as `[]`). -/
def getCollection (st : Store) (name : String) : List Record :=
  (lookupKey st name).getD []

/-- Write a collection back (`store.collections[name] = col`). -/
def setCollection (st : Store) (name : String) (col : List Record) : Store :=
  match st with
  | [] => [(name, col)]
  | (k, v) :: rest =>
      if k = name then (k, col) :: rest else (k, v) :: setCollection rest name col

/-- Shallow merge of the request body into a record
(`for k, v := range ctx.Body { item[k] = v }`): existing keys are
overwritten in place, new keys appended. -/
def mergeRecord (item : Record) (patch : Record) : Record :=
  patch.foldl (fun acc (kv : String × JValue) =>
    if (lookupKey acc kv.1).isSome then
      acc.map (fun p => if p.1 = kv.1 then (p.1, kv.2) else p)
    else acc ++ [kv]) item

/-- `ApplyStateful` (src/unnamed/part_015).  Returns the updated store and
the `StateContext` written into `ctx.State`; a returned error leaves the
store untouched, exactly as in the source, where every error path
returns before the collection is written back. -/
def applyStateful (store : Store) (cfg : StatefulConfig) (ctx : EContext) :
    Except StateError (Store × StateContext) :=
  let col := getCollection store cfg.collection
  let idField := if cfg.idField = "" then "id" else cfg.idField
  match cfg.action with
  | "create" =>
      let item := ctx.body
      match lookupKey item idField with
      | none => .error .badInput
      | some idVal =>
          if col.any (fun existing =>
              goSprintOpt (lookupKey existing idField) = goSprint idVal) then
            .error .conflict
          else
            let col' := col ++ [item]
            .ok (setCollection store cfg.collection col',
                 { list := col', created := some item })
  | "list" => .ok (store, { list := col })
  | "get" =>
      let id := (lookupKey ctx.path idField).getD ""
      match col.find? (fun item => goSprintOpt (lookupKey item idField) = id) with
      | some item => .ok (store, { item := some item })
      | none => .error .notFound
  | "update" =>
      let id := (lookupKey ctx.path idField).getD ""
      match col.findIdx? (fun item => goSprintOpt (lookupKey item idField) = id) with
      | some i =>
          let item := mergeRecord (col.get! i) ctx.body
          let col' := col.set i item
          .ok (setCollection store cfg.collection col', { updated := some item })
      | none => .error .notFound
  | "delete" =>
      let id := (lookupKey ctx.path idField).getD ""
      let found := col.any (fun item => goSprintOpt (lookupKey item idField) = id)
      let newCol := col.filter (fun item => goSprintOpt (lookupKey item idField) ≠ id)
      if found then
        .ok (setCollection store cfg.collection newCol, { list := newCol })
      else
        .error .notFound
  | a => .error (.unknownAction a)

/-- The string-projected ids of a collection under id field `f`. -/
def idsOf (f : String) (col : List Record) : List String :=
  col.map (fun r => goSprintOpt (lookupKey r f))

/-! ## Condition evaluator (src/server/utils/evaluator.go) -/

/-- The single-quote character, used by the literal syntax. -/
def sq : String := (Char.ofNat 39).toString

/-- Convert a digit list to a natural number. -/
def digitsToNat (cs : List Char) : Nat :=
  cs.foldl (fun acc c => acc * 10 + (c.toNat - 48)) 0

/-- `strconv.ParseFloat` on the decimal fragment the condition language
uses: optional sign, decimal digits with an optional fractional part and
an optional decimal exponent; the whole string must be consumed.
(Go additionally accepts hexadecimal floats and `Inf`/`NaN`, which the
configuration language never produces.) -/
def parseGoFloat (s : String) : Option ℚ :=
  let cs := s.toList
  if cs.isEmpty then none else
  let (sgn, cs) : Int × List Char :=
    match cs with
    | '+' :: r => (1, r)
    | '-' :: r => (-1, r)
    | _ => (1, cs)
  let intPart := cs.takeWhile Char.isDigit
  let cs1 := cs.dropWhile Char.isDigit
  let (fracPart, cs2) : List Char × List Char :=
    match cs1 with
    | '.' :: r => (r.takeWhile Char.isDigit, r.dropWhile Char.isDigit)
    | _ => ([], cs1)
  if intPart.isEmpty ∧ fracPart.isEmpty then none else
  -- mantissa numerator and denominator, kept as integers
  let mnum : Int :=
    sgn * (digitsToNat intPart * 10 ^ fracPart.length + digitsToNat fracPart)
  let mden : Nat := 10 ^ fracPart.length
  match cs2 with
  | [] => some (mkRat mnum mden)
  | c :: r =>
      if c = 'e' ∨ c = 'E' then
        let (eneg, r1) : Bool × List Char :=
          match r with
          | '+' :: rr => (false, rr)
          | '-' :: rr => (true, rr)
          | _ => (false, r)
        let ed := r1.takeWhile Char.isDigit
        let r2 := r1.dropWhile Char.isDigit
        if ed.isEmpty ∨ ¬ r2.isEmpty then none
        else if eneg then some (mkRat mnum (mden * 10 ^ digitsToNat ed))
        else some (mkRat (mnum * 10 ^ digitsToNat ed) mden)
      else none

/-- First-occurrence split (`strings.SplitN s sep 2` when `sep` occurs). -/
def splitFirst (s sep : String) : Option (String × String) :=
  let rec go (pre hay : List Char) : Option (String × String) :=
    if sep.toList.isPrefixOf hay then
      some (pre.reverse.asString, (hay.drop sep.toList.length).asString)
    else
      match hay with
      | [] => none
      | c :: rest => go (c :: pre) rest
  go [] s.toList

/-- Case-insensitive first-match lookup, as the per-scope loops of
`evalResolveValue` perform with `strings.EqualFold`. -/
def lookupFold {α : Type} (m : List (String × α)) (key : String) : Option α :=
  match m with
  | [] => none
  | (k, v) :: rest => if goEqualFold k key then some v else lookupFold rest key

/-- The per-scope dispatch of `evalResolveValue`: look the key up
case-insensitively in the chosen `EContext` scope; absence is an error. -/
def scopeLookup (ctx : EContext) (scope key : String) : Except String JValue :=
  match scope with
  | "body" =>
      match lookupFold ctx.body key with
      | some v => .ok v
      | none => .error ("body key '" ++ key ++ "' not found")
  | "query" =>
      match lookupFold ctx.query key with
      | some v => .ok (.vstr v)
      | none => .error ("query key '" ++ key ++ "' not found")
  | "headers" =>
      match lookupFold ctx.headers key with
      | some v => .ok (.vstr v)
      | none => .error ("header key '" ++ key ++ "' not found")
  | "path" =>
      match lookupFold ctx.path key with
      | some v => .ok (.vstr v)
      | none => .error ("path key '" ++ key ++ "' not found")
  | _ => .error ("unknown request scope: '" ++ scope ++ "'")

/-- `evalResolveValue`: resolve a `request.<scope>.<key>` reference. -/
def evalResolveValue (path : String) (ctx : EContext) : Except String JValue :=
  if ¬ goStartsWith path "request." then
    .error ("invalid reference (must start with 'request.'): '" ++ path ++ "'")
  else
    let parts := goSplitOn path "."
    if parts.length < 3 then .error ("invalid request reference: '" ++ path ++ "'")
    else scopeLookup ctx (parts.getD 1 "") (parts.getD 2 "")

/-- `evalTypeCheck`: classify the value and compare the class name. -/
def evalTypeCheck (value : JValue) (expectedType op : String) :
    Except String Bool :=
  let actual? : Option String :=
    match value with
    | .vstr v => if (parseGoFloat v).isSome then some "number" else some "string"
    | .vnum _ => some "number"
    | .vbool _ => some "boolean"
    | .vobj _ => some "dict"
    | _ => none
  match actual? with
  | none => .error "unsupported type detected"
  | some actual =>
      if op ≠ "==" ∧ op ≠ "!=" then
        .error ("invalid operator for type() comparison: '" ++ op ++ "'")
      else if op = "==" then .ok (decide (actual = expectedType))
      else .ok (decide (actual ≠ expectedType))

/-- `evalParseLiteral`: quoted string, boolean or number. -/
def evalParseLiteral (val : String) : Except String JValue :=
  let v := goTrimSpace val
  if goStartsWith v sq ∧ goEndsWith v sq ∧ 2 ≤ v.toList.length then
    .ok (.vstr (((v.toList.drop 1).dropLast).asString))
  else if v = "true" then .ok (.vbool true)
  else if v = "false" then .ok (.vbool false)
  else
    match parseGoFloat v with
    | some q => .ok (.vnum q)
    | none => .error ("invalid literal value: '" ++ v ++ "'")

/-- `compareFloats`. -/
def compareFloats (a b : ℚ) (op : String) : Except String Bool :=
  match op with
  | ">" => .ok (decide (a > b))
  | ">=" => .ok (decide (a ≥ b))
  | "<" => .ok (decide (a < b))
  | "<=" => .ok (decide (a ≤ b))
  | "==" => .ok (decide (a = b))
  | "!=" => .ok (decide (a ≠ b))
  | _ => .error ("unsupported comparison operator '" ++ op ++ "'")

/-- The numeric coercion helper of `evalCompareValues`. -/
def convertToFloat : JValue → Option ℚ
  | .vnum q => some q
  | .vstr s => parseGoFloat s
  | _ => none

/-- Test for the `nil` interface value. -/
def isNull : JValue → Bool
  | .vnull => true
  | _ => false

/-- `evalCompareValues`: type-directed comparison with numeric coercion. -/
def evalCompareValues (a b : JValue) (op : String) : Except String Bool :=
  match a with
  | .vnull => .error "cannot compare nil values"
  | .vnum aq =>
      if isNull b then .error "cannot compare nil values" else
      match convertToFloat b with
      | some bf => compareFloats aq bf op
      | none => .error "type mismatch: left numeric"
  | .vstr as =>
      if isNull b then .error "cannot compare nil values" else
      match parseGoFloat as, convertToFloat b with
      | some af, some bf => compareFloats af bf op
      | _, _ =>
          match b with
          | .vstr bs =>
              if op = "==" then .ok (decide (as = bs))
              else if op = "!=" then .ok (decide (as ≠ bs))
              else .error ("unsupported operator for string: " ++ op)
          | _ => .error "type mismatch: left string"
  | .vbool ab =>
      if isNull b then .error "cannot compare nil values" else
      match b with
      | .vbool bb =>
          if op = "==" then .ok (decide (ab = bb))
          else if op = "!=" then .ok (decide (ab ≠ bb))
          else .error ("unsupported operator for bool: " ++ op)
      | _ => .error "type mismatch: left bool"
  | _ => .error "unsupported comparison types"

/-- The ordered operator list scanned by `evalSingleCondition`. -/
def condOps : List String := ["==", "!=", "<=", ">=", "<", ">"]

/-- `evalSingleCondition`: one comparison atom or a `type()` check. -/
def evalSingleCondition (cond : String) (ctx : EContext) : Except String Bool :=
  match condOps.find? (fun o => goContains cond o) with
  | none => .error ("invalid operator in '" ++ cond ++ "'")
  | some op =>
      match splitFirst cond op with
      | none => .error ("invalid condition format: '" ++ cond ++ "'")
      | some (l, r) =>
          let leftTrim := goTrimSpace l
          let rightTrim := goTrimSpace r
          if goStartsWith leftTrim "type(" ∧ goEndsWith leftTrim ")" then
            let inner := goTrimSpace
                (((leftTrim.toList.drop 5).dropLast).asString)
            match evalResolveValue inner ctx with
            | .error e => .error ("failed to resolve value for type(): " ++ e)
            | .ok val =>
                let expectedType := goTrimChars rightTrim [Char.ofNat 39, '"', ' ']
                evalTypeCheck val expectedType op
          else
            match evalResolveValue leftTrim ctx with
            | .error e => .error ("left value error: " ++ e)
            | .ok leftVal =>
                match evalParseLiteral rightTrim with
                | .error e => .error ("right value error: " ++ e)
                | .ok rightVal => evalCompareValues leftVal rightVal op

/-- `splitLogical`. -/
def splitLogical (expr op : String) : List String :=
  goSplitOn expr (" " ++ op ++ " ")

/-- The inner `AND` loop of `EvaluateCondition`: commits on the first
false atom, aborts on the first error. -/
def evalAndChain (parts : List String) (ctx : EContext) : Except String Bool :=
  match parts with
  | [] => .ok true
  | p :: rest =>
      match evalSingleCondition (goTrimSpace p) ctx with
      | .error e => .error ("failed evaluating '" ++ p ++ "': " ++ e)
      | .ok false => .ok false
      | .ok true => evalAndChain rest ctx

/-- The outer `OR` loop of `EvaluateCondition`: commits on the first
branch whose `AND` chain holds. -/
def evalOrChain (parts : List String) (ctx : EContext) : Except String Bool :=
  match parts with
  | [] => .ok false
  | p :: rest =>
      match evalAndChain (splitLogical p "AND") ctx with
      | .error e => .error e
      | .ok true => .ok true
      | .ok false => evalOrChain rest ctx

/-- `EvaluateCondition`: normalise the logical operators, then evaluate
the OR-of-AND structure. -/
def EvaluateCondition (expr : String) (ctx : EContext) : Except String Bool :=
  let e := goTrimSpace expr
  if e = "" then .error "empty condition" else
  let e := goReplaceAll (goReplaceAll (goReplaceAll (goReplaceAll
      e "&&" " AND ") "||" " OR ") " and " " AND ") " or " " OR "
  evalOrChain (splitLogical e "OR") ctx

/-! ## Template engine (`ProcessTemplateJSON`) -/

/-- A character of the token-key class `[a-zA-Z0-9_.-]`. -/
def isKeyChar (c : Char) : Bool :=
  c.isAlpha ∨ c.isDigit ∨ c = '_' ∨ c = '.' ∨ c = '-'

/-- Match the template-token regex right after an opening `\x7b\x7b`:
whitespace, a non-empty key of `[a-zA-Z0-9_.-]`, an argument run free of
closing braces, then `\x7d\x7d`.  Returns the number of characters
consumed together with the key and argument captures. -/
def matchToken (cs : List Char) : Option (Nat × String × String) :=
  let sp := cs.takeWhile isGoSpace
  let cs1 := cs.dropWhile isGoSpace
  let key := cs1.takeWhile isKeyChar
  let cs2 := cs1.dropWhile isKeyChar
  if key.isEmpty then none else
  let args := cs2.takeWhile (fun c => c ≠ '}')
  let cs3 := cs2.dropWhile (fun c => c ≠ '}')
  match cs3 with
  | '}' :: '}' :: _ =>
      some (sp.length + key.length + args.length + 2, key.asString, args.asString)
  | _ => none

/-- `regexp.ReplaceAllStringFunc` for the token regex, by fuel recursion
(the fuel bounds the character count and is never exhausted by the
wrapper): every token occurrence is replaced via `repl matched key
args`, everything else is copied verbatim. -/
def scanTokensFuel (repl : String → String → String → String) :
    Nat → List Char → String
  | 0, cs => cs.asString
  | fuel + 1, cs =>
      match cs with
      | [] => ""
      | '{' :: '{' :: rest =>
          (match matchToken rest with
           | some (n, key, args) =>
               repl ("\x7b\x7b" ++ (rest.take n).asString) key args ++
                 scanTokensFuel repl fuel (rest.drop n)
           | none => "\x7b" ++ scanTokensFuel repl fuel ('{' :: rest))
      | c :: rest => c.toString ++ scanTokensFuel repl fuel rest

/-- The token-replacement pass over a whole string. -/
def scanTokens (repl : String → String → String → String)
    (cs : List Char) : String :=
  scanTokensFuel repl (2 * cs.length + 1) cs

/-- `regexp.FindStringSubmatch` for the token regex, by fuel recursion:
the first token occurrence, as (matched text, key). -/
def findFirstTokenFuel : Nat → List Char → Option (String × String)
  | 0, _ => none
  | fuel + 1, cs =>
      match cs with
      | [] => none
      | '{' :: '{' :: rest =>
          (match matchToken rest with
           | some (n, key, _) => some ("\x7b\x7b" ++ (rest.take n).asString, key)
           | none => findFirstTokenFuel fuel ('{' :: rest))
      | _ :: rest => findFirstTokenFuel fuel rest

/-- First token occurrence in a whole string. -/
def findFirstToken (cs : List Char) : Option (String × String) :=
  findFirstTokenFuel (2 * cs.length + 1) cs

/-- The generator library and the wall clock, as an explicit oracle: each
field returns the text a `gofakeit` call would produce. -/
structure FakerOracle where
  name : String := "n"
  uuid : String := "u"
  email : String := "e"
  bool : String := "true"
  date : String := "d"
  dateFuture : Int → String := fun _ => "d"
  dateNow : String := "d"
  number : Int → Int → String := fun _ _ => "0"

/-- `fmt.Sscanf`-style parse of `lit` followed by a decimal integer;
returns the integer and the unconsumed remainder. -/
def sscanfInt (s lit : String) : Option (Int × String) :=
  if goStartsWith s lit then
    let cs := s.toList.drop lit.toList.length
    let (sgn, cs1) : Int × List Char :=
      match cs with
      | '-' :: r => (-1, r)
      | '+' :: r => (1, r)
      | _ => (1, cs)
    let ds := cs1.takeWhile Char.isDigit
    if ds.isEmpty then none
    else some (sgn * (digitsToNat ds : Int), (cs1.dropWhile Char.isDigit).asString)
  else none

/-- Replacement of one template token (the body of the
`ReplaceAllStringFunc` callback): `request.*` references resolve through
`evalResolveValue` (unresolvable ones stay literal), generator keys call
the oracle, anything else stays literal. -/
def tmplReplToken (gen : FakerOracle) (ctx : EContext)
    (matched key args0 : String) : String :=
  let args := goTrimSpace args0
  if goStartsWith key "request." then
    match evalResolveValue key ctx with
    | .ok val => goSprint val
    | .error _ => matched
  else
    match key with
    | "name" => gen.name
    | "uuid" => gen.uuid
    | "email" => gen.email
    | "bool" => gen.bool
    | "date" => gen.date
    | "dateFuture" =>
        gen.dateFuture ((sscanfInt args "days=").map Prod.fst |>.getD 1)
    | "dateNow" => gen.dateNow
    | "number" =>
        match sscanfInt args "min=" with
        | none => gen.number 1 1000
        | some (mn, rest) =>
            match sscanfInt (goTrimSpace rest) "max=" with
            | none => gen.number mn 1000
            | some (mx, _) => gen.number mn mx
    | _ => matched

/-- Project a `StateContext` shortcut to the raw object it substitutes. -/
def stateShortcut (st : StateContext) (key : String) : Option JValue :=
  match key with
  | "state.list" => some (.varr (st.list.map .vobj))
  | "state.item" =>
      some (match st.item with | some r => .vobj r | none => .vnull)
  | "state.created" =>
      some (match st.created with | some r => .vobj r | none => .vnull)
  | "state.updated" =>
      some (match st.updated with | some r => .vobj r | none => .vnull)
  | _ => none

/-- The string case of `ProcessTemplateJSON`: a string that is exactly a
single `state.*` token substitutes the raw object; otherwise every token
is replaced textually. -/
def processTemplateString (gen : FakerOracle) (ctx : EContext) (t : String) :
    JValue :=
  let trimmed := goTrimSpace t
  let plain := JValue.vstr (scanTokens (tmplReplToken gen ctx) t.toList)
  match findFirstToken trimmed.toList with
  | some (matched, key) =>
      match ctx.state with
      | some st =>
          if matched = trimmed then
            match stateShortcut st key with
            | some v => v
            | none => plain
          else plain
      | none => plain
  | none => plain

mutual

/-- `ProcessTemplateJSON`: recursive template expansion over a decoded
JSON value.  The base cases never fail; the `Except` mirrors the
source's error plumbing. -/
def ProcessTemplateJSON (gen : FakerOracle) (template : JValue)
    (ctx : EContext) : Except String JValue :=
  match template with
  | .vstr t => .ok (processTemplateString gen ctx t)
  | .vobj fs =>
      match processTemplateObj gen fs ctx with
      | .ok fs' => .ok (.vobj fs')
      | .error e => .error e
  | .varr xs =>
      match processTemplateArr gen xs ctx with
      | .ok xs' => .ok (.varr xs')
      | .error e => .error e
  | other => .ok other

/-- Object recursion of `ProcessTemplateJSON`. -/
def processTemplateObj (gen : FakerOracle) (fs : List (String × JValue))
    (ctx : EContext) : Except String (List (String × JValue)) :=
  match fs with
  | [] => .ok []
  | (k, v) :: rest =>
      match ProcessTemplateJSON gen v ctx with
      | .error e => .error e
      | .ok v' =>
          match processTemplateObj gen rest ctx with
          | .error e => .error e
          | .ok rest' => .ok ((k, v') :: rest')

/-- Array recursion of `ProcessTemplateJSON`. -/
def processTemplateArr (gen : FakerOracle) (xs : List JValue)
    (ctx : EContext) : Except String (List JValue) :=
  match xs with
  | [] => .ok []
  | v :: rest =>
      match ProcessTemplateJSON gen v ctx with
      | .error e => .error e
      | .ok v' =>
          match processTemplateArr gen rest ctx with
          | .error e => .error e
          | .ok rest' => .ok (v' :: rest')

end

/-! ## JSON-schema validator (src/server/utils/schema_validator.go) -/

/-- `config.JSONSchema`: the Draft-7 subset carried by the route config.
`pattern` is matched through an explicit regexp oracle. -/
inductive JSchema where
  | mk : (type : String) → (properties : List (String × JSchema)) →
      (required : List String) → (items : Option JSchema) →
      (enum : List JValue) → (minimum : Option ℚ) → (maximum : Option ℚ) →
      (minLength : Option Nat) → (maxLength : Option Nat) →
      (pattern : String) → (additionalProperties : Bool) → JSchema

def JSchema.type : JSchema → String
  | .mk t _ _ _ _ _ _ _ _ _ _ => t

def JSchema.properties : JSchema → List (String × JSchema)
  | .mk _ p _ _ _ _ _ _ _ _ _ => p

def JSchema.required : JSchema → List String
  | .mk _ _ r _ _ _ _ _ _ _ _ => r

def JSchema.items : JSchema → Option JSchema
  | .mk _ _ _ i _ _ _ _ _ _ _ => i

def JSchema.enum : JSchema → List JValue
  | .mk _ _ _ _ e _ _ _ _ _ _ => e

def JSchema.minimum : JSchema → Option ℚ
  | .mk _ _ _ _ _ m _ _ _ _ _ => m

def JSchema.maximum : JSchema → Option ℚ
  | .mk _ _ _ _ _ _ m _ _ _ _ => m

def JSchema.minLength : JSchema → Option Nat
  | .mk _ _ _ _ _ _ _ m _ _ _ => m

def JSchema.maxLength : JSchema → Option Nat
  | .mk _ _ _ _ _ _ _ _ m _ _ => m

def JSchema.pattern : JSchema → String
  | .mk _ _ _ _ _ _ _ _ _ p _ => p

def JSchema.additionalProperties : JSchema → Bool
  | .mk _ _ _ _ _ _ _ _ _ _ a => a

/-- `validateType`, the type gate of the validator.  Numeric strings pass
`integer`/`number`; for numeric data with any expected type other than
`integer` the source sets `gotType = expectedType`, so the final
comparison always passes (embedded as written). -/
def validateType (expectedType : String) (data : JValue) (path : String) :
    Except String Unit :=
  if expectedType = "" then .ok () else
  match data with
  | .vstr val =>
      if expectedType = "integer" ∨ expectedType = "number" then
        match parseGoFloat val with
        | some f =>
            if expectedType = "integer" ∧ f.den ≠ 1 then
              .error (path ++ ": expected integer (whole number), got float string '"
                ++ val ++ "'")
            else .ok ()
        | none =>
            if expectedType = "string" then .ok ()
            else .error (path ++ ": expected type '" ++ expectedType ++ "', got 'string'")
      else if expectedType = "boolean" ∧ (val = "true" ∨ val = "false") then .ok ()
      else if expectedType = "string" then .ok ()
      else .error (path ++ ": expected type '" ++ expectedType ++ "', got 'string'")
  | .vnum q =>
      if expectedType = "integer" then
        if q.den ≠ 1 then .error (path ++ ": expected integer, got float")
        else .ok ()
      else .ok ()
  | .vbool _ =>
      if expectedType = "boolean" then .ok ()
      else .error (path ++ ": expected type '" ++ expectedType ++ "', got 'boolean'")
  | .vobj _ =>
      if expectedType = "object" then .ok ()
      else .error (path ++ ": expected type '" ++ expectedType ++ "', got 'object'")
  | .varr _ =>
      if expectedType = "array" then .ok ()
      else .error (path ++ ": expected type '" ++ expectedType ++ "', got 'array'")
  | .vnull =>
      if expectedType = "null" then .ok ()
      else .error (path ++ ": expected type '" ++ expectedType ++ "', got 'null'")

/-- The `maximum` check of the numeric branch. -/
def numericChecksMax (s : JSchema) (val : ℚ) (path : String) :
    Except String Unit :=
  if hmax : s.maximum.isSome then
    if s.maximum.get hmax < val then
      .error (path ++ ": must be <= " ++ goSprintNum (s.maximum.get hmax))
    else .ok ()
  else .ok ()

/-- The `minimum`/`maximum` checks of the numeric branch (`val` is the
comma-ok `float64` assertion, zero for non-numeric data). -/
def numericChecks (s : JSchema) (val : ℚ) (path : String) :
    Except String Unit :=
  if hmin : s.minimum.isSome then
    if val < s.minimum.get hmin then
      .error (path ++ ": must be >= " ++ goSprintNum (s.minimum.get hmin))
    else numericChecksMax s val path
  else numericChecksMax s val path

/-- The `pattern` and `enum` checks of the `string` branch. -/
def stringChecksTail2 (rm : String → String → Bool) (s : JSchema)
    (val : String) (path : String) : Except String Unit :=
  if s.pattern ≠ "" ∧ ¬ rm s.pattern val then
    .error (path ++ ": value does not match pattern '" ++ s.pattern ++ "'")
  else if ¬ s.enum.isEmpty ∧ ¬ s.enum.any (fun e => e == JValue.vstr val) then
    .error (path ++ ": invalid value '" ++ val ++ "'")
  else .ok ()

/-- The `maxLength` check of the `string` branch, then its tail. -/
def stringChecksTail (rm : String → String → Bool) (s : JSchema)
    (val : String) (path : String) : Except String Unit :=
  if hmax : s.maxLength.isSome then
    if s.maxLength.get hmax < val.utf8ByteSize then
      .error (path ++ ": length must be <= " ++ toString (s.maxLength.get hmax))
    else stringChecksTail2 rm s val path
  else stringChecksTail2 rm s val path

mutual

/-- `ValidateJSONSchema`: recursive validation of decoded data against a
schema.  The unchecked `data.(string)` assertion of the `string` branch
is embedded as a distinguished `panic:` error. -/
def ValidateJSONSchema (rm : String → String → Bool) :
    (schema : Option JSchema) → (data : JValue) → (path : String) →
    Except String Unit
  | none, _, _ => .ok ()
  | some s, data, path0 =>
      let path := if path0 = "" then "root" else path0
      match validateType s.type data path with
      | .error e => .error e
      | .ok () =>
          if isNull data then .ok () else
          match hs : s.type with
          | "object" =>
              match data with
              | .vobj m => validateObject rm s m path
              | _ => .error (path ++ ": expected object")
          | "array" =>
              match data with
              | .varr arr =>
                  match hi : s.items with
                  | none => .ok ()
                  | some its => validateArrayItems rm its arr path 0
              | _ => .error (path ++ ": expected array")
          | "string" =>
              match data with
              | .vstr val =>
                  if hmin : s.minLength.isSome then
                    if val.utf8ByteSize < s.minLength.get hmin then
                      .error (path ++ ": length must be >= " ++
                        toString (s.minLength.get hmin))
                    else stringChecksTail rm s val path
                  else stringChecksTail rm s val path
              | _ => .error (path ++ ": panic: interface conversion")
          | "integer" =>
              numericChecks s (match data with | .vnum q => q | _ => 0) path
          | "number" =>
              numericChecks s (match data with | .vnum q => q | _ => 0) path
          | _ => .ok ()
termination_by schema data _ => (sizeOf schema, sizeOf data)
decreasing_by
  · apply Prod.Lex.left
    simp
    all_goals omega
  · apply Prod.Lex.left
    cases s with
    | mk t p r i e mn mx mnl mxl pat ap =>
        simp [JSchema.items] at hi
        subst hi
        simp
        all_goals omega

/-- `validateObject`: the `required` loop, then the per-entry loop. -/
def validateObject (rm : String → String → Bool) (s : JSchema)
    (data : Record) (parentPath : String) : Except String Unit :=
  match s.required.find? (fun rq => (lookupKey data rq).isNone) with
  | some rq =>
      .error (parentPath ++ ": missing required field '" ++ rq ++ "'")
  | none => validateObjEntries rm s.properties data parentPath
termination_by (sizeOf s, sizeOf data)
decreasing_by
  apply Prod.Lex.left
  cases s with
  | mk t p r i e mn mx mnl mxl pat ap =>
      simp [JSchema.properties]
      all_goals omega

/-- The `for key, val := range data` loop of `validateObject`.  An entry
whose key is not declared in `properties` is skipped: in the source the
`if !schema.AdditionalProperties` statement has an empty body, so
`additionalProperties` never influences the outcome. -/
def validateObjEntries (rm : String → String → Bool)
    (props : List (String × JSchema)) (entries : Record)
    (parentPath : String) : Except String Unit :=
  match entries with
  | [] => .ok ()
  | (key, val) :: rest =>
      match h : lookupKey props key with
      | none => validateObjEntries rm props rest parentPath
      | some ps =>
          match ValidateJSONSchema rm (some ps) val (parentPath ++ "." ++ key) with
          | .error e => .error e
          | .ok () => validateObjEntries rm props rest parentPath
termination_by (sizeOf props, sizeOf entries)
decreasing_by
  · apply Prod.Lex.right
    simp
    all_goals omega
  · apply Prod.Lex.left
    have hlt : ∀ (m : List (String × JSchema)) (k : String) (v : JSchema),
        lookupKey m k = some v → sizeOf v + 2 ≤ sizeOf m := by
      intro m k v hl
      induction m with
      | nil => simp [lookupKey] at hl
      | cons hd tl ih =>
          rw [lookupKey] at hl
          split at hl
          · cases hd with
            | mk k0 v0 =>
                simp at hl
                subst hl
                simp
                all_goals omega
          · have := ih hl
            simp
            all_goals omega
    have := hlt props key ps h
    simp
    all_goals omega
  · apply Prod.Lex.right
    simp
    all_goals omega

/-- `validateArray`: validate each element against the `items` schema. -/
def validateArrayItems (rm : String → String → Bool) (its : JSchema)
    (arr : List JValue) (path : String) (i : Nat) : Except String Unit :=
  match arr with
  | [] => .ok ()
  | v :: rest =>
      match ValidateJSONSchema rm (some its) v
          (path ++ "[" ++ toString i ++ "]") with
      | .error e => .error e
      | .ok () => validateArrayItems rm its rest path (i + 1)
termination_by (sizeOf its + 1, sizeOf arr)
decreasing_by
  · have hsome : sizeOf (some its) = sizeOf its + 1 := by
      simp
      all_goals omega
    rw [hsome]
    apply Prod.Lex.right
    simp
    all_goals omega
  · apply Prod.Lex.right
    simp
    all_goals omega

end

/-! ## Filter / sort / paginate (src/server/utils/filteredMockData.go) -/

/-- Hexadecimal digit value. -/
def hexVal (c : Char) : Option Nat :=
  if '0' ≤ c ∧ c ≤ '9' then some (c.toNat - 48)
  else if 'a' ≤ c ∧ c ≤ 'f' then some (c.toNat - 87)
  else if 'A' ≤ c ∧ c ≤ 'F' then some (c.toNat - 55)
  else none

/-- Percent-decoding of `url.QueryUnescape` (ASCII fragment); `none` on a
malformed escape. -/
def queryUnescapeChars : List Char → Option (List Char)
  | [] => some []
  | '%' :: a :: b :: rest =>
      match hexVal a, hexVal b with
      | some ha, some hb =>
          (queryUnescapeChars rest).map (Char.ofNat (ha * 16 + hb) :: ·)
      | _, _ => none
  | '%' :: _ => none
  | '+' :: rest => (queryUnescapeChars rest).map (' ' :: ·)
  | c :: rest => (queryUnescapeChars rest).map (c :: ·)

/-- `decodedVal, _ := url.QueryUnescape(val)`: the error is discarded, so
a malformed value decodes to the empty string. -/
def goQueryUnescape (s : String) : String :=
  match queryUnescapeChars s.toList with
  | some cs => cs.asString
  | none => ""

/-- Round half to even, as `fmt.Sprintf "%.0f"` rounds (the fractional
remainder `q - floor q = r / den` is compared against one half through
the integers). -/
def roundHalfEven (q : ℚ) : Int :=
  let fl := q.floor
  let r : Int := q.num - fl * (q.den : Int)
  if 2 * r < (q.den : Int) then fl
  else if (q.den : Int) < 2 * r then fl + 1
  else if fl % 2 = 0 then fl else fl + 1

/-- `fmt.Sprintf "%.0f"` of a number (including the `-0` of small
negative values). -/
def sprintfDotZero (q : ℚ) : String :=
  let r := roundHalfEven q
  if r = 0 ∧ q < 0 then "-0" else intDecimal r

/-- `matchExact`: strict equality of a field against a query literal. -/
def matchExact (v : JValue) (target : String) : Bool :=
  match v with
  | .vnum q => target = sprintfDotZero q
  | .vstr s => s = target
  | .vbool b => (target = "true" ∧ b) ∨ (target = "false" ∧ ¬ b)
  | _ => false

/-- `applyExactFilters`: every query key that is not reserved keeps only
the records whose field equals the decoded literal. -/
def applyExactFilters (data : List Record)
    (params : List (String × String)) : List Record :=
  params.foldl (fun filtered kv =>
    if goStartsWith kv.1 "_" ∨ kv.1 = "apiKey" ∨ goEndsWith kv.1 "_like" then
      filtered
    else
      let decodedVal := goQueryUnescape kv.2
      filtered.filter (fun item =>
        match lookupKey item kv.1 with
        | some v => matchExact v decodedVal
        | none => false)) data

/-- `applyLikeFilters`: `<field>_like` keys keep records whose stringified
field contains the decoded needle case-insensitively. -/
def applyLikeFilters (data : List Record)
    (params : List (String × String)) : List Record :=
  params.foldl (fun filtered kv =>
    if ¬ goEndsWith kv.1 "_like" then filtered
    else
      let field := goTrimSuffix kv.1 "_like"
      let needle := goToLower (goQueryUnescape kv.2)
      filtered.filter (fun item =>
        match lookupKey item field with
        | some v => goContains (goToLower (goSprint v)) needle
        | none => false)) data

/-- `compareValues`: the strict-order comparator handed to
`sort.SliceStable`, dispatching on the left value's dynamic type. -/
def compareValues (a b : JValue) (order : String) : Bool :=
  match a with
  | .vnum va =>
      let vb : ℚ := match b with | .vnum q => q | _ => 0
      if order = "desc" then decide (vb < va) else decide (va < vb)
  | .vstr va =>
      let vb := goSprint b
      if order = "desc" then decide (vb < va) else decide (va < vb)
  | .vbool va =>
      let vb : Bool := match b with | .vbool x => x | _ => false
      if order = "desc" then va ∧ ¬ vb else ¬ va ∧ vb
  | _ => true

/-- The less function of `applySorting`, with its missing-field cases. -/
def sortLess (sortField order : String) (x y : Record) : Bool :=
  match lookupKey x sortField, lookupKey y sortField with
  | none, none => false
  | none, some _ => false
  | some _, none => true
  | some vi, some vj => compareValues vi vj order

/-- Stable insertion into an already-placed prefix. -/
def stableInsert {α : Type} (less : α → α → Bool) (x : α) :
    List α → List α
  | [] => [x]
  | y :: ys => if less x y then x :: y :: ys else y :: stableInsert less x ys

/-- A stable sort by a strict comparator, modelling `sort.SliceStable`:
elements are placed left to right, and an element never moves before one
it is not strictly less than, so equal elements keep their order. -/
def stableSort {α : Type} (less : α → α → Bool) (l : List α) : List α :=
  l.foldl (fun acc x => stableInsert less x acc) []

/-- `applySorting`: `_sort`/`_order` driven stable sort (no-op without
`_sort`). -/
def applySorting (data : List Record)
    (params : List (String × String)) : List Record :=
  let sortField := (lookupKey params "_sort").getD ""
  let sortOrder := goToLower ((lookupKey params "_order").getD "")
  if sortField = "" then data
  else stableSort (sortLess sortField sortOrder) data

/-- `fmt.Sscanf "%d"`: leading spaces, an optional sign, then decimal
digits; trailing text is left unread. -/
def sscanfD (s : String) : Option Int :=
  let cs := s.toList.dropWhile isGoSpace
  let (sgn, cs1) : Int × List Char :=
    match cs with
    | '-' :: r => (-1, r)
    | '+' :: r => (1, r)
    | _ => (1, cs)
  let ds := cs1.takeWhile Char.isDigit
  if ds.isEmpty then none else some (sgn * (digitsToNat ds : Int))

/-- `applyPagination`: `_limit`/`_page` slicing; `_limit ≤ 0` disables
pagination; a start index past the end yields the empty page. -/
def applyPagination (data : List Record)
    (params : List (String × String)) : Except String (List Record) :=
  let limitE : Except String Int :=
    match lookupKey params "_limit" with
    | none => .ok 0
    | some val =>
        match sscanfD val with
        | some l =>
            if l < 0 then .error "_limit must be a positive number" else .ok l
        | none => .error "_limit must be a positive number"
  match limitE with
  | .error e => .error e
  | .ok limit =>
      let pageE : Except String Int :=
        match lookupKey params "_page" with
        | none => .ok 1
        | some val =>
            match sscanfD val with
            | some p =>
                if p < 1 then .error "_page must be a positive number" else .ok p
            | none => .error "_page must be a positive number"
      match pageE with
      | .error e => .error e
      | .ok page =>
          if limit ≤ 0 then .ok data
          else
            let start := (page - 1) * limit
            if data.length ≤ start then .ok []
            else .ok ((data.drop start.toNat).take limit.toNat)

/-- `FilteredMockData`: exact filters, then `_like` filters, then the
stable sort, then pagination, in that order. -/
def FilteredMockData (data : List Record)
    (params : List (String × String)) : Except String (List Record) :=
  let f1 := applyExactFilters data params
  let f2 := applyLikeFilters f1 params
  let f3 := applySorting f2 params
  applyPagination f3 params

/-! ## Auth middleware (src/server/middleware.go) -/

/-- `config.AuthConfig`. -/
structure AuthConfig where
  enabled : Bool := false
  type : String := ""
  inLoc : String := ""   -- the `in` field of the config
  name : String := ""
  keys : List String := []
  deriving Repr, BEq

/-- The outcome of the auth middleware: pass the request on, or answer
with an error status and code. -/
inductive AuthResult where
  | next
  | reject (status : Nat) (code : String)
  deriving Repr, DecidableEq

/-- `_contains`. -/
def containsStr (slice : List String) (val : String) : Bool :=
  slice.any (· = val)

/-- The bearer normalisation of `authMiddleware`: when the credential is
longer than seven characters and its first seven compare case-
insensitively equal to `"Bearer "`, they are stripped
(`len(credential) > 7 && strings.EqualFold(credential[0:7], "Bearer ")`,
then `credential[7:]`); otherwise the credential is kept whole. -/
def stripBearerPrefix (credential : String) : String :=
  if 7 < credential.toList.length ∧
      goEqualFold (credential.toList.take 7).asString "Bearer " then
    (credential.toList.drop 7).asString
  else credential

/-- The credential-scheme switch of `authMiddleware`: `apikey` compares
the credential verbatim; `bearer` strips a case-insensitive `"Bearer "`
prefix and trims whitespace before the key-set membership test; any
other type is a 500. -/
def authValidateCredential (auth : AuthConfig) (credential : String) :
    AuthResult :=
  match goToLower auth.type with
  | "apikey" =>
      if containsStr auth.keys credential then .next
      else .reject 401 "INVALID_API_KEY"
  | "bearer" =>
      let token := goTrimSpace (stripBearerPrefix credential)
      if containsStr auth.keys token then .next
      else .reject 401 "INVALID_BEARER_TOKEN"
  | _ => .reject 500 "UNSUPPORTED_AUTH_TYPE"

/-- `authMiddleware`: route-level auth overrides global; disabled auth
passes; a missing auth type is a 500; the credential is read from the
configured header or query location (a bearer route falls back to the
`Authorization` header when that yields nothing), an empty credential is
a 401, anything else goes through the scheme switch. -/
def authMiddleware (globalAuth routeAuth : Option AuthConfig)
    (getHeader getQuery : String → String) : AuthResult :=
  let authConf := match routeAuth with | some a => some a | none => globalAuth
  match authConf with
  | none => .next
  | some a =>
      if ¬ a.enabled then .next
      else
        let authType := goToLower a.type
        let authIn := goToLower a.inLoc
        if authType = "" then .reject 500 "AUTH_MISCONFIGURED"
        else
          let credential :=
            match authIn with
            | "header" => getHeader a.name
            | "query" => getQuery a.name
            | _ => ""
          let credential :=
            if credential = "" ∧ authType = "bearer" then
              getHeader "Authorization"
            else credential
          if credential = "" then .reject 401 "MISSING_CREDENTIAL"
          else authValidateCredential a credential

/-! ## Delay resolution and config validation -/

/-- `computeDelay` (src/server/console_ui.go): the default is assigned
first, a non-zero route delay replaces it, and a non-zero cfg (mock or
fetch) delay replaces that in turn; a negative result is an error. -/
def computeDelay (routeDelay cfgDelay defaultDelay : Int) :
    Except String Int :=
  let d1 := defaultDelay
  let d2 := if routeDelay ≠ 0 then routeDelay else d1
  let d3 := if cfgDelay ≠ 0 then cfgDelay else d2
  if d3 < 0 then .error ("invalid delay value: " ++ toString d3)
  else .ok d3

/-- `validateDelay` (src/server/utils.go): the 10-second cap.  The
function is defined in the source but has no caller. -/
def validateDelay (delay : Int) : Except String Int :=
  if 10000 < delay then
    .error ("delay cannot exceed 10000 ms (10 seconds), got " ++ toString delay)
  else .ok delay

/-- `config.MockConfig`. -/
structure MockConfig where
  body : Option JValue := none
  file : String := ""
  status : Int := 0
  headers : List (String × String) := []
  delayMs : Int := 0
  deriving Repr, BEq

/-- `config.CResponse` (the `then` of a case, and `default`). -/
structure CResponse where
  status : Int := 0
  body : JValue := .vnull
  headers : List (String × String) := []
  delayMs : Int := 0
  deriving Repr, BEq

/-- `validateMock` (src/unnamed/part_007): file shape/existence, status
range, and only a negativity check on `delay_ms`. -/
def validateMock (fileExists : String → Bool) (mock : MockConfig) :
    Except String Unit :=
  if mock.file ≠ "" ∧ ¬ goEndsWith mock.file ".json" then
    .error "mock.file must be a .json file"
  else if mock.file ≠ "" ∧ ¬ fileExists mock.file then
    .error "mock.file not found"
  else if mock.status ≠ 0 ∧ (mock.status < 100 ∨ 599 < mock.status) then
    .error "mock.status must be between 100 and 599"
  else if mock.delayMs < 0 then
    .error "mock.delay_ms cannot be negative"
  else .ok ()

/-- `validateCaseResponse` (src/unnamed/part_007): status range and only
a negativity check on `delay_ms`. -/
def validateCaseResponse (resp : CResponse) : Except String Unit :=
  if resp.status < 100 ∨ 599 < resp.status then
    .error "invalid status code"
  else if resp.delayMs < 0 then
    .error "delay_ms cannot be negative"
  else .ok ()

/-! ## Route configuration and the per-request pipeline
(src/server/console_ui.go, createRouteHandler and the mock handler) -/

/-- `config.CaseConfig`: one `{when, then}` rule. -/
structure CaseConfig where
  whenCond : String
  thenResp : CResponse
  deriving Repr, BEq

/-- The slice of `config.RouteConfig` the pipeline reads.  The fetch
strategy performs upstream I/O, so only its presence is modelled; its
response enters the pipeline as an explicit parameter. -/
structure RouteConfig where
  name : String := ""
  method : String := "GET"
  path : String := "/"
  status : Int := 0
  headers : List (String × String) := []
  delayMs : Int := 0
  bodySchema : Option JSchema := none
  stateful : Option StatefulConfig := none
  cases : List CaseConfig := []
  mock : Option MockConfig := none
  fetchPresent : Bool := false
  dflt : Option CResponse := none

/-- The slice of `config.ServerConfig` the pipeline reads. -/
structure ServerConfig where
  defaultHeaders : List (String × String) := []
  defaultDelayMs : Int := 0
  deriving Repr, BEq

/-- Insert-or-overwrite into an association list (Go `m[k] = v`). -/
def setKeyStr (m : List (String × String)) (k v : String) :
    List (String × String) :=
  if (lookupKey m k).isSome then
    m.map (fun p => if p.1 = k then (k, v) else p)
  else m ++ [(k, v)]

/-- `mergeHeaders`: defaults, then route headers, then custom headers;
later keys overwrite earlier ones. -/
def mergeHeaders (defaults routeHeaders customHeaders :
    List (String × String)) : List (String × String) :=
  (defaults ++ routeHeaders ++ customHeaders).foldl
    (fun acc kv => setKeyStr acc kv.1 kv.2) []

/-- A compiled `MockHandler`: resolved status, headers and delay plus the
pre-loaded data source. -/
structure MockHandler where
  status : Int
  headers : List (String × String)
  delayMs : Int
  mockBodyData : Option JValue := none
  mockFileData : Option (Except String JValue) := none

/-- `newMockHandler`: status precedence `mock.status > route.status >
200` (later assignment wins), merged headers, `computeDelay`, and the
data source (`body` before `file`).  The file is read at compile time;
`readFile` returns `none` for an unreadable path and the decoded bytes
otherwise (`.error` for bytes that are not valid JSON, decoded lazily by
the handler). -/
def newMockHandler (readFile : String → Option (Except String JValue))
    (cfg : MockConfig) (routeCfg : RouteConfig) (srvCfg : ServerConfig) :
    Except String MockHandler :=
  let status : Int :=
    if cfg.status ≠ 0 then cfg.status
    else if routeCfg.status ≠ 0 then routeCfg.status
    else 200
  let headers := mergeHeaders srvCfg.defaultHeaders routeCfg.headers cfg.headers
  match computeDelay routeCfg.delayMs cfg.delayMs srvCfg.defaultDelayMs with
  | .error e => .error e
  | .ok delay =>
      match cfg.body with
      | some b =>
          .ok { status := status, headers := headers, delayMs := delay,
                mockBodyData := some b }
      | none =>
          if cfg.file ≠ "" then
            match readFile cfg.file with
            | some data =>
                .ok { status := status, headers := headers, delayMs := delay,
                      mockFileData := some data }
            | none => .error "failed to read mock file"
          else .error "mock must define either 'body' or 'file'"

/-- One HTTP response as the pipeline produces it: status, the headers
set on the response writer, the JSON body, the artificial delay slept
before answering, and the error code of the envelope when the response
is an error. -/
structure PResponse where
  status : Int
  headers : List (String × String) := []
  body : JValue := .vnull
  delayMs : Int := 0
  errorCode : Option String := none
  message : String := ""
  deriving Repr, BEq

/-- The error envelope of `responseError`. -/
def mkError (status : Int) (code message : String) : PResponse :=
  { status := status, errorCode := some code, message := message }

/-- The decoded inbound request.  `bodyBytes = none` models an empty
body; `some (.error e)` a non-empty body that is not a JSON object;
`some (.ok r)` a body decoding to the object `r`. -/
structure Request where
  method : String := "GET"
  bodyBytes : Option (Except String Record) := none
  headers : List (String × String) := []
  query : List (String × String) := []
  pathParams : List (String × String) := []

/-- `buildHeaders`: lowercase the header keys. -/
def buildHeaders (hs : List (String × String)) : List (String × String) :=
  hs.map (fun p => (goToLower p.1, p.2))

/-- `buildQuery`: lowercase the query keys. -/
def buildQuery (qs : List (String × String)) : List (String × String) :=
  qs.map (fun p => (goToLower p.1, p.2))

/-- `shouldParseBody`: POST/PUT/PATCH with a non-empty body. -/
def shouldParseBody (req : Request) : Bool :=
  (req.method = "POST" ∨ req.method = "PUT" ∨ req.method = "PATCH") ∧
    req.bodyBytes.isSome

/-- Require every element of a decoded array to be an object. -/
def toRecords : List JValue → Option (List Record)
  | [] => some []
  | .vobj m :: rest => (toRecords rest).map (m :: ·)
  | _ => none

/-- `parseAndFilterMockData`: decode, template, normalise a single object
into a one-element array, require objects, then filter. -/
def parseAndFilterMockData (gen : FakerOracle)
    (data : Except String JValue) (ctx : EContext)
    (params : List (String × String)) : Except String (List Record) :=
  match data with
  | .error e => .error ("invalid JSON format: " ++ e)
  | .ok rawData =>
      match ProcessTemplateJSON gen rawData ctx with
      | .error e => .error ("failed to process template JSON: " ++ e)
      | .ok processed =>
          let arrE : Except String (List JValue) :=
            match processed with
            | .varr v => .ok v
            | .vobj m => .ok [.vobj m]
            | _ => .error "mock data must be an object or array of objects"
          match arrE with
          | .error e => .error e
          | .ok arr =>
              match toRecords arr with
              | none => .error "mock array items must be objects"
              | some result =>
                  match FilteredMockData result params with
                  | .error e => .error ("failed to filter mock data: " ++ e)
                  | .ok filtered => .ok filtered

/-- `MockHandler.handler`: delay, headers, body parse and schema
validation, then the inline-template or file-filter scenario. -/
def mockHandlerRun (gen : FakerOracle) (rm : String → String → Bool)
    (m : MockHandler) (routeCfg : RouteConfig) (req : Request)
    (ctx : EContext) : PResponse :=
  -- All params: path params first, then queries (later keys overwrite).
  let params :=
    (req.pathParams ++ req.query).foldl (fun acc kv => setKeyStr acc kv.1 kv.2) []
  let bodyStep : Except PResponse Record :=
    if shouldParseBody req then
      match req.bodyBytes with
      | some (.ok body) =>
          match routeCfg.bodySchema with
          | some schema =>
              match ValidateJSONSchema rm (some schema) (.vobj body)
                  "request.body" with
              | .error e =>
                  .error { mkError 400 "SCHEMA_VALIDATION_FAILED" e with
                             headers := m.headers, delayMs := m.delayMs }
              | .ok () => .ok body
          | none => .ok body
      | some (.error e) =>
          .error { mkError 400 "INVALID_BODY" e with
                     headers := m.headers, delayMs := m.delayMs }
      | none => .ok []
    else .ok []
  match bodyStep with
  | .error resp => resp
  | .ok _ =>
      match m.mockBodyData with
      | some d =>
          match ProcessTemplateJSON gen d ctx with
          | .error e =>
              { mkError 500 "TEMPLATE_ERROR" e with
                  headers := m.headers, delayMs := m.delayMs }
          | .ok processed =>
              { status := m.status, headers := m.headers, body := processed,
                delayMs := m.delayMs }
      | none =>
          match parseAndFilterMockData gen (m.mockFileData.getD (.ok .vnull))
              ctx params with
          | .error e =>
              { mkError 500 "MOCK_PARSE_ERROR" e with
                  headers := m.headers, delayMs := m.delayMs }
          | .ok filtered =>
              { status := m.status, headers := m.headers,
                body := .varr (filtered.map .vobj), delayMs := m.delayMs }

/-- `handleStateError`: the 404/409 hint envelopes and the 500 fallback. -/
def handleStateError (e : StateError) : PResponse :=
  match e with
  | .notFound => mkError 404 "STATE_NOT_FOUND" "Item not found in collection"
  | .conflict => mkError 409 "STATE_CONFLICT" "Item already exists"
  | .badInput => mkError 500 "STATE_ERROR" "state: invalid input"
  | .unknownAction a => mkError 500 "STATE_ERROR" ("unknown stateful action: " ++ a)

/-- The case loop of `createRouteHandler`: first matching case answers
with its delay, headers, status and templated body; an evaluation error
answers 500 `CASE_EVAL_ERROR`; `none` when no case matched. -/
def runCases (gen : FakerOracle) (cases : List CaseConfig) (ctx : EContext) :
    Option PResponse :=
  match cases with
  | [] => none
  | cs :: rest =>
      match EvaluateCondition cs.whenCond ctx with
      | .error e => some (mkError 500 "CASE_EVAL_ERROR" e)
      | .ok true =>
          match ProcessTemplateJSON gen cs.thenResp.body ctx with
          | .error e => some (mkError 500 "TEMPLATE_PROCESS_ERROR" e)
          | .ok processed =>
              some { status := cs.thenResp.status,
                     headers := cs.thenResp.headers,
                     body := processed,
                     delayMs := cs.thenResp.delayMs }
      | .ok false => runCases gen rest ctx

/-- A compiled route: the pre-initialised base handler next to the route
entry (the result of the startup phase of `createRouteHandler`). -/
structure CompiledRoute where
  route : RouteConfig
  baseMock : Option MockHandler := none

/-- The startup phase of `createRouteHandler`: build the mock base
handler when `mock` is configured (fetch handlers perform only I/O setup
and are represented by `fetchPresent`). -/
def compileRoute (readFile : String → Option (Except String JValue))
    (route : RouteConfig) (srvCfg : ServerConfig) :
    Except String CompiledRoute :=
  match route.mock with
  | some mcfg =>
      match newMockHandler readFile mcfg route srvCfg with
      | .error e => .error e
      | .ok mh => .ok { route := route, baseMock := some mh }
  | none => .ok { route := route }

/-- Build the `EContext` of one request, as the closure of
`createRouteHandler` does: lowercased headers and query, path bindings,
and the body object (a failed `json.Unmarshal` is ignored, leaving the
empty object). -/
def buildEContext (req : Request) : EContext :=
  { headers := buildHeaders req.headers,
    query := buildQuery req.query,
    path := req.pathParams,
    body := match req.bodyBytes with
            | some (.ok r) => r
            | _ => [] }

/-- The stateful step of the pipeline: run `ApplyStateful` and either
store the produced `StateContext` into the context or answer with the
mapped state error, leaving the store untouched. -/
def statefulStep (scfg : Option StatefulConfig) (store : Store)
    (ctx0 : EContext) : Except PResponse (Store × EContext) :=
  match scfg with
  | some cfg =>
      match applyStateful store cfg ctx0 with
      | .error e => .error (handleStateError e)
      | .ok (store', st) => .ok (store', { ctx0 with state := some st })
  | none => .ok (store, ctx0)

/-- The per-request pipeline of `createRouteHandler`: context assembly,
the stateful step, the case loop, the base handler, the `default`
fallback, then 404 `HANDLER_NOT_MATCHED`.  Returns the store as left by
the request next to the response; `fetchResp` is the response the fetch
base handler would produce (upstream I/O being outside the model). -/
def runPipeline (gen : FakerOracle) (rm : String → String → Bool)
    (cr : CompiledRoute) (fetchResp : PResponse) (store : Store)
    (req : Request) : Store × PResponse :=
  let ctx0 := buildEContext req
  match statefulStep cr.route.stateful store ctx0 with
  | .error resp => (store, resp)
  | .ok (store', ctx) =>
      -- Case loop
      match runCases gen cr.route.cases ctx with
      | some resp => (store', resp)
      | none =>
          -- Base handler
          match cr.baseMock with
          | some mh => (store', mockHandlerRun gen rm mh cr.route req ctx)
          | none =>
              if cr.route.fetchPresent then (store', fetchResp)
              else
                -- Default fallback (fetch routes are excluded, vacuously here)
                match cr.route.dflt with
                | some d =>
                    match ProcessTemplateJSON gen d.body ctx with
                    | .error e => (store', mkError 500 "DEFAULT_TEMPLATE_ERROR" e)
                    | .ok processed =>
                        (store', { status := d.status, headers := d.headers,
                                   body := processed, delayMs := d.delayMs })
                | none =>
                    (store', mkError 404 "HANDLER_NOT_MATCHED" "No handler matched")

/-! ## Derived definitions used by the statements below -/

/-- A `create` stateful config on collection `c` with id field `f`. -/
def createCfg (c f : String) : StatefulConfig :=
  { collection := c, action := "create", idField := f }

/-- A `delete` stateful config on collection `c` with id field `f`. -/
def deleteCfg (c f : String) : StatefulConfig :=
  { collection := c, action := "delete", idField := f }

/-- The store left behind by one `create`: a successful create commits
its store, a failed one leaves the store as it was (as the pipeline
does, answering the error without touching the collection). -/
def createStepStore (c f : String) (store : Store) (item : Record) : Store :=
  match applyStateful store (createCfg c f) { body := item } with
  | .ok (st', _) => st'
  | .error _ => store

/-- Run a sequence of `create` operations. -/
def runCreates (c f : String) (items : List Record) (store : Store) : Store :=
  items.foldl (createStepStore c f) store

/-- Two key-value lists that agree up to the letter-case of their keys:
same length, equal values, and pairwise case-folded-equal keys. -/
def keysCaseEquiv {α : Type} (m1 m2 : List (String × α)) : Prop :=
  List.Forall₂ (fun p q => goToLower p.1 = goToLower q.1 ∧ p.2 = q.2) m1 m2

/-- Two execution contexts that differ only in the letter-case of their
body, query, header and path key names. -/
structure CtxCaseEquiv (c1 c2 : EContext) : Prop where
  body : keysCaseEquiv c1.body c2.body
  query : keysCaseEquiv c1.query c2.query
  headers : keysCaseEquiv c1.headers c2.headers
  path : keysCaseEquiv c1.path c2.path

/-- One record of the 25-object seed payload. -/
def mkItem (n : Nat) : Record :=
  [("id", .vnum (n : ℚ)), ("name", .vstr ("n" ++ toString n))]

/-- The seed payload `[{id:1,name:"n1"}, ..., {id:25,name:"n25"}]`. -/
def data25 : List Record := (List.range 25).map (fun i => mkItem (i + 1))

/-- The query `_sort=id&_order=desc&_page=2&_limit=10`. -/
def params25 : List (String × String) :=
  [("_sort", "id"), ("_order", "desc"), ("_page", "2"), ("_limit", "10")]

/-- The objects with ids 15 down to 6, in that order. -/
def expected25 : List Record := (List.range 10).map (fun i => mkItem (15 - i))

/-- An `integer` property schema with no further constraints. -/
def intSchemaC7 : JSchema :=
  .mk "integer" [] [] none [] none none none none "" true

/-- An object schema declaring only `a` and setting
`additionalProperties: false`. -/
def schemaC7 : JSchema :=
  .mk "object" [("a", intSchemaC7)] [] none [] none none none none "" false

/-- A body carrying the undeclared property `b`. -/
def bodyC7 : Record := [("a", .vnum 1), ("b", .vnum 2)]

/-- A case whose condition fails on `?x=1`. -/
def caseFalseW : CaseConfig :=
  { whenCond := "request.query.x == '2'", thenResp := { status := 418 } }

/-- A case whose condition holds on `?x=1`; its `then` omits a body. -/
def caseTrueW : CaseConfig :=
  { whenCond := "request.query.x == '1'",
    thenResp := { status := 201, headers := [("H", "v")], delayMs := 5 } }

/-- A compiled route carrying the two cases and a sibling mock body. -/
def crCasesW : CompiledRoute :=
  { route := { cases := [caseFalseW, caseTrueW],
               mock := some { body := some (.vstr "mockbody") } },
    baseMock := some { status := 200, headers := [], delayMs := 0,
                       mockBodyData := some (.vstr "mockbody") } }

/-- The request `GET ...?x=1`. -/
def reqQ1 : Request := { query := [("x", "1")] }

/-- A compiled route with a stateful create followed by a case whose
condition references a missing body key (evaluation is a hard error). -/
def crStatefulW : CompiledRoute :=
  { route := { method := "POST", stateful := some (createCfg "users" "id"),
               cases := [{ whenCond := "request.body.nope == 1",
                           thenResp := { status := 200 } }] } }

/-- A `POST` request with body `{"id":1,"name":"a"}`. -/
def reqPostW : Request :=
  { method := "POST",
    bodyBytes := some (.ok [("id", .vnum 1), ("name", .vstr "a")]) }

/-! ## Helper lemmas -/

theorem computeDelay_ok_eq (r c d x : Int) (h : computeDelay r c d = .ok x) :
    x = if c ≠ 0 then c else if r ≠ 0 then r else d := by
  simp only [computeDelay] at h
  split_ifs at h <;> simp_all

/-! ## C3 — delay precedence -/

/-- C3, counterexample: with `route.delay_ms = 100` and
`mock.delay_ms = 200` the effective delay is 200, not the 100 the claim
demands — `computeDelay` assigns the route delay first and then lets a
non-zero mock delay overwrite it. -/
theorem computeDelay_mock_overrides_route :
    computeDelay 100 200 0 = .ok 200 ∧ computeDelay 100 200 0 ≠ .ok 100 := by
  refine ⟨rfl, fun h => ?_⟩
  have := Except.ok.inj h
  omega

/-- C3, amended: the effective artificial delay of a mock handler is
chosen with precedence mock.delay_ms over route.delay_ms over
server.default_delay_ms — whenever mock.delay_ms is set (non-zero) it is
the delay applied, regardless of route.delay_ms. -/
theorem newMockHandler_delay_precedence
    (readFile : String → Option (Except String JValue))
    (cfg : MockConfig) (routeCfg : RouteConfig) (srvCfg : ServerConfig)
    (mh : MockHandler) (h : newMockHandler readFile cfg routeCfg srvCfg = .ok mh) :
    mh.delayMs = if cfg.delayMs ≠ 0 then cfg.delayMs
      else if routeCfg.delayMs ≠ 0 then routeCfg.delayMs
      else srvCfg.defaultDelayMs := by
  simp only [newMockHandler] at h
  split at h
  · exact absurd h (by simp)
  · rename_i delay hcd
    have hx := computeDelay_ok_eq _ _ _ _ hcd
    split at h
    · cases Except.ok.inj h
      simpa using hx
    · split at h
      · split at h
        · cases Except.ok.inj h
          simpa using hx
        · exact absurd h (by simp)
      · exact absurd h (by simp)

/-- C3, witness for the amended theorem at `route.delay_ms = 100`,
`mock.delay_ms = 200`, `default = 0`. -/
theorem newMockHandler_delay_precedence_witness :
    newMockHandler (fun _ => none)
        { body := some (.vstr "x"), delayMs := 200 } { delayMs := 100 } {} =
      .ok { status := 200, headers := [], delayMs := 200,
            mockBodyData := some (.vstr "x") } ∧
    ({ status := 200, headers := [], delayMs := 200,
       mockBodyData := some (.vstr "x") } : MockHandler).delayMs = 200 := by
  refine ⟨rfl, ?_⟩
  have := newMockHandler_delay_precedence (fun _ => none)
    { body := some (.vstr "x"), delayMs := 200 } { delayMs := 100 } {}
    { status := 200, headers := [], delayMs := 200,
      mockBodyData := some (.vstr "x") } rfl
  simpa using this

/-! ## C1 — create semantics and id uniqueness -/

theorem getCollection_setCollection (st : Store) (n : String)
    (col : List Record) : getCollection (setCollection st n col) n = col := by
  induction st with
  | nil => simp [setCollection, getCollection, lookupKey]
  | cons hd tl ih =>
      by_cases hk : hd.1 = n
      · cases hd
        simp_all [setCollection, getCollection, lookupKey]
      · cases hd
        simp_all [setCollection, getCollection, lookupKey]

theorem mem_idsOf {f : String} {col : List Record} {s : String} :
    s ∈ idsOf f col ↔ ∃ r ∈ col, goSprintOpt (lookupKey r f) = s := by
  simp [idsOf, List.mem_map]

theorem applyStateful_create_missing (c f : String) (hf : f ≠ "")
    (store : Store) (item : Record) (h : lookupKey item f = none) :
    applyStateful store (createCfg c f) { body := item } = .error .badInput := by
  simp [applyStateful, createCfg, hf, h]

theorem applyStateful_create_conflict (c f : String) (hf : f ≠ "")
    (store : Store) (item : Record) (v : JValue)
    (hv : lookupKey item f = some v)
    (hmem : goSprint v ∈ idsOf f (getCollection store c)) :
    applyStateful store (createCfg c f) { body := item } = .error .conflict := by
  have hany : (getCollection store c).any
      (fun existing => goSprintOpt (lookupKey existing f) = goSprint v) = true := by
    simp only [List.any_eq_true, decide_eq_true_eq]
    exact mem_idsOf.mp hmem
  simp [applyStateful, createCfg, hf, hv, hany]

theorem applyStateful_create_success (c f : String) (hf : f ≠ "")
    (store : Store) (item : Record) (v : JValue)
    (hv : lookupKey item f = some v)
    (hmem : goSprint v ∉ idsOf f (getCollection store c)) :
    applyStateful store (createCfg c f) { body := item } =
      .ok (setCollection store c (getCollection store c ++ [item]),
           { list := getCollection store c ++ [item],
             created := some item }) := by
  have hany : (getCollection store c).any
      (fun existing => goSprintOpt (lookupKey existing f) = goSprint v) = false := by
    simp only [List.any_eq_false, decide_eq_true_eq]
    intro r hr hrv
    exact hmem (mem_idsOf.mpr ⟨r, hr, hrv⟩)
  simp [applyStateful, createCfg, hf, hv, hany]

theorem idsOf_append (f : String) (col : List Record) (item : Record) :
    idsOf f (col ++ [item]) = idsOf f col ++ [goSprintOpt (lookupKey item f)] := by
  simp [idsOf]

theorem createStepStore_ids_mono (c f : String) (hf : f ≠ "")
    (store : Store) (item : Record) :
    idsOf f (getCollection store c) ⊆
      idsOf f (getCollection (createStepStore c f store item) c) := by
  unfold createStepStore
  rcases hv : lookupKey item f with _ | v
  · rw [applyStateful_create_missing c f hf store item hv]
    exact fun s hs => hs
  · by_cases hmem : goSprint v ∈ idsOf f (getCollection store c)
    · rw [applyStateful_create_conflict c f hf store item v hv hmem]
      exact fun s hs => hs
    · rw [applyStateful_create_success c f hf store item v hv hmem]
      simp only [getCollection_setCollection, idsOf_append]
      exact fun s hs => List.mem_append_left _ hs

theorem createStepStore_nodup (c f : String) (hf : f ≠ "")
    (store : Store) (item : Record)
    (h : (idsOf f (getCollection store c)).Nodup) :
    (idsOf f (getCollection (createStepStore c f store item) c)).Nodup := by
  unfold createStepStore
  rcases hv : lookupKey item f with _ | v
  · rw [applyStateful_create_missing c f hf store item hv]; exact h
  · by_cases hmem : goSprint v ∈ idsOf f (getCollection store c)
    · rw [applyStateful_create_conflict c f hf store item v hv hmem]; exact h
    · rw [applyStateful_create_success c f hf store item v hv hmem]
      simp only [getCollection_setCollection, idsOf_append]
      refine List.Nodup.append h (List.nodup_singleton _) ?_
      intro s hs hs'
      have hs2 : s = goSprint v := by
        have := List.mem_singleton.mp hs'
        simpa [goSprintOpt, hv] using this
      exact hmem (hs2 ▸ hs)

theorem runCreates_ids_mono (c f : String) (hf : f ≠ "")
    (items : List Record) :
    ∀ store : Store, idsOf f (getCollection store c) ⊆
      idsOf f (getCollection (runCreates c f items store) c) := by
  induction items with
  | nil => intro store s hs; exact hs
  | cons it rest ih =>
      intro store s hs
      have h1 := createStepStore_ids_mono c f hf store it hs
      exact ih (createStepStore c f store it) h1

theorem runCreates_nodup (c f : String) (hf : f ≠ "")
    (items : List Record) :
    ∀ store : Store, (idsOf f (getCollection store c)).Nodup →
      (idsOf f (getCollection (runCreates c f items store) c)).Nodup := by
  induction items with
  | nil => intro store h; exact h
  | cons it rest ih =>
      intro store h
      exact ih (createStepStore c f store it)
        (createStepStore_nodup c f hf store it h)

/-- C1: for every create sequence on a collection with id field `f`
(non-defaulted): a create whose record lacks `f` answers `BadInput`
without touching the store; one whose string-projected id is already in
the collection answers `Conflict` without touching the store; otherwise
the record is appended, `state.created` is the record and `state.list`
the new sequence.  Hence the string-projection of `f` stays duplicate-
free over every create sequence, and once an id has entered the
collection, every later create with an equal projected id answers
`Conflict`. -/
theorem create_semantics_and_uniqueness (c f : String) (hf : f ≠ "")
    (store : Store) (item : Record) :
    (lookupKey item f = none →
      applyStateful store (createCfg c f) { body := item } = .error .badInput) ∧
    (∀ v, lookupKey item f = some v →
      goSprint v ∈ idsOf f (getCollection store c) →
      applyStateful store (createCfg c f) { body := item } = .error .conflict) ∧
    (∀ v, lookupKey item f = some v →
      goSprint v ∉ idsOf f (getCollection store c) →
      applyStateful store (createCfg c f) { body := item } =
        .ok (setCollection store c (getCollection store c ++ [item]),
             { list := getCollection store c ++ [item],
               created := some item })) ∧
    (∀ items : List Record, (idsOf f (getCollection store c)).Nodup →
      (idsOf f (getCollection (runCreates c f items store) c)).Nodup) ∧
    (∀ (items : List Record) (item' : Record) (v' : JValue),
      lookupKey item' f = some v' →
      goSprint v' ∈ idsOf f (getCollection store c) →
      applyStateful (runCreates c f items store) (createCfg c f)
        { body := item' } = .error .conflict) := by
  refine ⟨applyStateful_create_missing c f hf store item,
    fun v => applyStateful_create_conflict c f hf store item v,
    fun v => applyStateful_create_success c f hf store item v,
    fun items => runCreates_nodup c f hf items store,
    fun items item' v' hv' hmem => ?_⟩
  exact applyStateful_create_conflict c f hf _ item' v' hv'
    (runCreates_ids_mono c f hf items store hmem)

/-- C1, witness: on an empty store, creating `{id:1}` succeeds and
appends; re-creating id 1 (even as the string `"1"`) conflicts; a record
without `id` is bad input; and after the two-step sequence the projected
ids are exactly `["1"]`, duplicate-free. -/
theorem create_semantics_witness :
    applyStateful [] (createCfg "users" "id") { body := [("id", .vnum 1)] } =
      .ok ([("users", [[("id", .vnum 1)]])],
           { list := [[("id", .vnum 1)]], created := some [("id", .vnum 1)] }) ∧
    applyStateful [("users", [[("id", .vnum 1)]])] (createCfg "users" "id")
        { body := [("id", .vstr "1"), ("name", .vstr "b")] } =
      .error .conflict ∧
    applyStateful [] (createCfg "users" "id") { body := [("name", .vstr "x")] } =
      .error .badInput ∧
    (idsOf "id" (getCollection
      (runCreates "users" "id"
        [[("id", .vnum 1)], [("id", .vstr "1"), ("name", .vstr "b")]] [])
      "users")).Nodup := by
  have h := create_semantics_and_uniqueness "users" "id" (by decide)
    ([] : Store) [("id", .vnum 1)]
  refine ⟨?_, ?_, ?_, ?_⟩
  · exact h.2.2.1 (.vnum 1) rfl (by decide)
  · have h2 := create_semantics_and_uniqueness "users" "id" (by decide)
      [("users", [[("id", .vnum 1)]])] [("id", .vstr "1"), ("name", .vstr "b")]
    exact h2.2.1 (.vstr "1") rfl (by decide)
  · have h3 := create_semantics_and_uniqueness "users" "id" (by decide)
      ([] : Store) [("name", .vstr "x")]
    exact h3.1 rfl
  · exact h.2.2.2.1
      [[("id", .vnum 1)], [("id", .vstr "1"), ("name", .vstr "b")]] (by decide)

/-! ## C4 — delete removes every matching record -/

/-- C4, counterexample: deleting id `"1"` from a collection holding two
records whose projected id is `"1"` (reachable through `update`) empties
the collection — the loop skips *every* match, while the claim says only
the first match is removed and the later one kept. -/
theorem delete_removes_all_matches :
    applyStateful
        [("users", [[("id", .vnum 1), ("name", .vstr "a")],
                    [("id", .vnum 1), ("name", .vstr "b")]])]
        (deleteCfg "users" "id") { path := [("id", "1")] } =
      .ok ([("users", [])], { list := [] }) ∧
    ([] : List Record) ≠ [[("id", .vnum 1), ("name", .vstr "b")]] :=
  ⟨rfl, by simp⟩

/-- C4, amended: a delete whose path id matches no record's
string-projected id answers `NotFound` and leaves the collection
unchanged; otherwise **all** matching records are removed (not only the
first) and `state.list` is the post-removal sequence. -/
theorem applyStateful_delete_semantics (c f : String) (hf : f ≠ "")
    (store : Store) (ctx : EContext) :
    ((∀ r ∈ getCollection store c,
        goSprintOpt (lookupKey r f) ≠ (lookupKey ctx.path f).getD "") →
      applyStateful store (deleteCfg c f) ctx = .error .notFound) ∧
    ((∃ r ∈ getCollection store c,
        goSprintOpt (lookupKey r f) = (lookupKey ctx.path f).getD "") →
      applyStateful store (deleteCfg c f) ctx =
        .ok (setCollection store c
              ((getCollection store c).filter (fun r =>
                goSprintOpt (lookupKey r f) ≠ (lookupKey ctx.path f).getD "")),
             { list := (getCollection store c).filter (fun r =>
                goSprintOpt (lookupKey r f) ≠ (lookupKey ctx.path f).getD "") })) := by
  constructor
  · intro hno
    have hany : (getCollection store c).any
        (fun item => goSprintOpt (lookupKey item f) =
          (lookupKey ctx.path f).getD "") = false := by
      simp only [List.any_eq_false, decide_eq_true_eq]
      exact hno
    simp [applyStateful, deleteCfg, hf, hany]
  · intro hyes
    have hany : (getCollection store c).any
        (fun item => goSprintOpt (lookupKey item f) =
          (lookupKey ctx.path f).getD "") = true := by
      simp only [List.any_eq_true, decide_eq_true_eq]
      exact hyes
    simp [applyStateful, deleteCfg, hf, hany]

/-- C4, witness: deleting id `"9"` from `{users: [{id:1}]}` is
`NotFound`; deleting id `"1"` removes the record and sets `state.list`
to the post-removal sequence. -/
theorem applyStateful_delete_semantics_witness :
    applyStateful [("users", [[("id", .vnum 1)]])] (deleteCfg "users" "id")
        { path := [("id", "9")] } = .error .notFound ∧
    applyStateful [("users", [[("id", .vnum 1)]])] (deleteCfg "users" "id")
        { path := [("id", "1")] } =
      .ok ([("users", [])], { list := [] }) := by
  have h9 := applyStateful_delete_semantics "users" "id" (by decide)
    [("users", [[("id", .vnum 1)]])] { path := [("id", "9")] }
  have h1 := applyStateful_delete_semantics "users" "id" (by decide)
    [("users", [[("id", .vnum 1)]])] { path := [("id", "1")] }
  refine ⟨h9.1 ?_, ?_⟩
  · intro r hr
    have hr' : r = [("id", JValue.vnum 1)] := by
      simpa [getCollection, lookupKey] using hr
    subst hr'
    decide
  · have := h1.2 ⟨[("id", .vnum 1)],
      by simp [getCollection, lookupKey], by decide⟩
    simpa using this

/-! ## C6 — bearer credential normalisation -/

theorem toList_append (a b : String) : (a ++ b).toList = a.toList ++ b.toList := by
  cases a with
  | mk da =>
      cases b with
      | mk db => rfl

theorem asString_toList (s : String) : s.toList.asString = s := rfl

theorem toList_ne_nil (s : String) (h : s ≠ "") : s.toList ≠ [] := by
  intro hnil
  apply h
  cases s with
  | mk d =>
      cases d with
      | nil => rfl
      | cons c cs => simp [String.toList] at hnil

theorem stripBearerPrefix_lower_append (k : String) (hk : k ≠ "") :
    stripBearerPrefix ("bearer " ++ k) = k := by
  unfold stripBearerPrefix
  rw [toList_append]
  have h7 : ("bearer " : String).toList.length = 7 := by decide
  have hklen : 1 ≤ k.toList.length :=
    List.length_pos.mpr (toList_ne_nil k hk)
  have htake : (("bearer " : String).toList ++ k.toList).take 7 =
      ("bearer " : String).toList := by
    rw [← h7]
    exact List.take_left _ _
  have hdrop : (("bearer " : String).toList ++ k.toList).drop 7 = k.toList := by
    rw [← h7]
    exact List.drop_left _ _
  have hcond : 7 < (("bearer " : String).toList ++ k.toList).length ∧
      goEqualFold ((("bearer " : String).toList ++ k.toList).take 7).asString
        "Bearer " := by
    constructor
    · rw [List.length_append, h7]
      omega
    · rw [htake]
      decide
  rw [if_pos hcond, hdrop, asString_toList]

/-- C6: for effective enabled bearer auth, the extracted credential is
normalised by stripping a case-insensitive `"Bearer "` prefix and
trimming surrounding whitespace before the key-set membership test;
hence a credential `"bearer <k>"` (lowercase prefix) with `k` in the key
set and free of surrounding whitespace is accepted, acceptance depends
only on the stripped-and-trimmed token, and the middleware hands exactly
the credential extracted from the configured header location to that
test. -/
theorem bearer_strip_case_insensitive (auth : AuthConfig) (cred : String)
    (htype : goToLower auth.type = "bearer") :
    (authValidateCredential auth cred =
      if containsStr auth.keys (goTrimSpace (stripBearerPrefix cred))
      then .next else .reject 401 "INVALID_BEARER_TOKEN") ∧
    (∀ k, k ∈ auth.keys → goTrimSpace k = k → k ≠ "" →
      authValidateCredential auth ("bearer " ++ k) = .next) ∧
    (∀ cred2 : String,
      goTrimSpace (stripBearerPrefix cred) =
        goTrimSpace (stripBearerPrefix cred2) →
      authValidateCredential auth cred = authValidateCredential auth cred2) ∧
    (∀ getHeader getQuery : String → String,
      auth.enabled = true → goToLower auth.inLoc = "header" →
      getHeader auth.name ≠ "" →
      authMiddleware (some auth) none getHeader getQuery =
        authValidateCredential auth (getHeader auth.name)) := by
  have hbranch : ∀ c : String, authValidateCredential auth c =
      if containsStr auth.keys (goTrimSpace (stripBearerPrefix c))
      then .next else .reject 401 "INVALID_BEARER_TOKEN" := by
    intro c
    simp only [authValidateCredential, htype]
  refine ⟨hbranch cred, fun k hk htrim hne => ?_, fun cred2 heq => ?_,
    fun getHeader getQuery hen hin hne => ?_⟩
  · rw [hbranch ("bearer " ++ k), stripBearerPrefix_lower_append k hne, htrim,
      if_pos (by simpa [containsStr, List.any_eq_true] using hk)]
  · rw [hbranch cred, hbranch cred2, heq]
  · have hne' : goToLower auth.type ≠ "" := by
      rw [htype]
      decide
    simp only [authMiddleware, hen, hin, htype]
    simp [hne, hne']

/-- C6, witness: with key set `["k"]`, the lowercase-prefixed credential
`"bearer k"` is accepted, both through the scheme switch and through the
whole middleware with the credential read from the configured header. -/
theorem bearer_strip_case_insensitive_witness :
    authValidateCredential
        { enabled := true, type := "bearer", inLoc := "header",
          name := "Authorization", keys := ["k"] } "bearer k" = .next ∧
    authMiddleware
        (some { enabled := true, type := "bearer", inLoc := "header",
                name := "Authorization", keys := ["k"] }) none
        (fun _ => "bearer k") (fun _ => "") = .next := by
  have h := bearer_strip_case_insensitive
    { enabled := true, type := "bearer", inLoc := "header",
      name := "Authorization", keys := ["k"] } "bearer k" rfl
  constructor
  · exact h.2.1 "k" (by decide) rfl (by decide)
  · have hmw := h.2.2.2 (fun _ => "bearer k") (fun _ => "") rfl rfl (by decide)
    rw [hmw]
    exact h.2.1 "k" (by decide) rfl (by decide)

/-! ## C7 — additionalProperties is never enforced -/

/-- C7, failing input: the schema declares only `a` and sets
`additionalProperties: false`, yet a body carrying the undeclared
property `b` passes validation — the `if !schema.AdditionalProperties`
statement in `validateObject` has an empty body.  The claim demands a
400 `SCHEMA_VALIDATION_FAILED` here. -/
theorem additionalProperties_not_enforced :
    ValidateJSONSchema (fun _ _ => true) (some schemaC7) (.vobj bodyC7)
        "request.body" = .ok () ∧
    schemaC7.additionalProperties = false ∧
    lookupKey schemaC7.properties "b" = none := by
  refine ⟨?_, rfl, rfl⟩
  simp [ValidateJSONSchema, validateObject, validateObjEntries, validateType,
    schemaC7, bodyC7, intSchemaC7, JSchema.type, JSchema.required,
    JSchema.properties, numericChecks, numericChecksMax, JSchema.minimum,
    JSchema.maximum, lookupKey, isNull, parseGoFloat]

/-! ## C8 — the 10-second delay cap is not enforced at validation -/

/-- C8, failing input `mock.delay_ms = 20000`: `validateMock` (and
`validateCaseResponse`) only reject negative delays, so validation
accepts 20 000 ms; `computeDelay` then happily resolves it, and the
compiled handler carries a 20 000 ms delay.  The cap lives only in
`validateDelay`, which no code calls. -/
theorem delay_cap_not_validated :
    validateMock (fun _ => true) { delayMs := 20000 } = .ok () ∧
    validateCaseResponse { status := 200, delayMs := 20000 } = .ok () ∧
    computeDelay 0 20000 0 = .ok 20000 ∧
    newMockHandler (fun _ => none)
        { body := some (.vstr "x"), delayMs := 20000 } {} {} =
      .ok { status := 200, headers := [], delayMs := 20000,
            mockBodyData := some (.vstr "x") } ∧
    validateDelay 20000 =
      .error "delay cannot exceed 10000 ms (10 seconds), got 20000" :=
  ⟨rfl, rfl, rfl, rfl, rfl⟩

/-! ## C5 — filter pipeline order and the 25-object example -/

/-- C5: the served sequence of an array mock is exactly
exact-filters, then `_like` filters, then the stable `_sort`/`_order`
sort, then `_page`/`_limit` pagination, in that order; on the 25-object
payload with `_sort=id&_order=desc&_page=2&_limit=10` the result is the
objects with ids 15 down to 6. -/
theorem filteredMockData_order_and_example :
    (∀ (data : List Record) (params : List (String × String)),
        FilteredMockData data params =
          applyPagination (applySorting
            (applyLikeFilters (applyExactFilters data params) params)
            params) params) ∧
    FilteredMockData data25 params25 = .ok expected25 := by
  refine ⟨fun data params => rfl, ?_⟩
  rfl

/-! ## C2 — the first matching case wins -/

theorem runCases_skip_false (gen : FakerOracle) (ctx : EContext)
    (pre rest : List CaseConfig)
    (hpre : ∀ c ∈ pre, EvaluateCondition c.whenCond ctx = .ok false) :
    runCases gen (pre ++ rest) ctx = runCases gen rest ctx := by
  induction pre with
  | nil => rfl
  | cons c cs ih =>
      have hc := hpre c (List.mem_cons_self c cs)
      rw [List.cons_append, runCases, hc]
      exact ih (fun c' hc' => hpre c' (List.mem_cons_of_mem c hc'))

/-- C2: on a route with a non-empty case list, once the stateful step
has produced context `ctx` and store `store'`, the first case whose
condition holds produces the whole response — its declared status,
headers and delay, with the body being exactly the template expansion of
its `then` body — and nothing later in the pipeline runs: the result
does not depend on the route's mock, fetch or default.  A winning case
whose `then` omits a body (`null`) answers its declared status with an
empty (`null`) body and never falls back to a sibling mock body. -/
theorem first_matching_case_wins (gen : FakerOracle)
    (rm : String → String → Bool) (cr : CompiledRoute)
    (fetchResp : PResponse) (store store' : Store) (req : Request)
    (ctx : EContext) (pre post : List CaseConfig) (cs : CaseConfig)
    (bodyv : JValue)
    (hcases : cr.route.cases = pre ++ cs :: post)
    (hstate : statefulStep cr.route.stateful store (buildEContext req) =
      .ok (store', ctx))
    (hpre : ∀ c ∈ pre, EvaluateCondition c.whenCond ctx = .ok false)
    (hwin : EvaluateCondition cs.whenCond ctx = .ok true)
    (htmpl : ProcessTemplateJSON gen cs.thenResp.body ctx = .ok bodyv) :
    runPipeline gen rm cr fetchResp store req =
      (store', { status := cs.thenResp.status, headers := cs.thenResp.headers,
                 body := bodyv, delayMs := cs.thenResp.delayMs }) ∧
    (cs.thenResp.body = .vnull → bodyv = .vnull) := by
  constructor
  · have hrc : runCases gen cr.route.cases ctx =
        some { status := cs.thenResp.status, headers := cs.thenResp.headers,
               body := bodyv, delayMs := cs.thenResp.delayMs } := by
      rw [hcases, runCases_skip_false gen ctx pre (cs :: post) hpre,
        runCases, hwin, htmpl]
    simp only [runPipeline, hstate, hrc]
  · intro hnull
    rw [hnull] at htmpl
    exact (Except.ok.inj htmpl).symm

/-- C2, witness: on `?x=1`, the first case fails, the second wins with
status 201, header `H: v`, delay 5 and an empty (`null`) body — the
sibling mock body `"mockbody"` is never used. -/
theorem first_matching_case_wins_witness :
    runPipeline {} (fun _ _ => true) crCasesW (mkError 0 "" "") [] reqQ1 =
      ([], { status := 201, headers := [("H", "v")], body := .vnull,
             delayMs := 5 }) ∧
    (caseTrueW.thenResp.body = .vnull → JValue.vnull = .vnull) := by
  have h := first_matching_case_wins {} (fun _ _ => true) crCasesW
    (mkError 0 "" "") [] [] reqQ1 (buildEContext reqQ1)
    [caseFalseW] [] caseTrueW .vnull
    (by rfl) (by rfl)
    (by
      intro c hc
      have : c = caseFalseW := List.mem_singleton.mp hc
      subst this
      rfl)
    (by rfl) (by rfl)
  exact ⟨h.1, h.2⟩

/-! ## C10 — stateful mutations persist past later failures -/

/-- C10: the stateful step is not atomic with the rest of the pipeline —
whenever `ApplyStateful` succeeds with updated store `store'`, the
request ends with exactly `store'` regardless of everything that happens
afterwards (a case-evaluation 500, a template failure, any response at
all); no later error rolls the collection back. -/
theorem stateful_mutation_persists (gen : FakerOracle)
    (rm : String → String → Bool) (cr : CompiledRoute)
    (fetchResp : PResponse) (store : Store) (req : Request)
    (scfg : StatefulConfig) (store' : Store) (st : StateContext)
    (hcfg : cr.route.stateful = some scfg)
    (hok : applyStateful store scfg (buildEContext req) = .ok (store', st)) :
    (runPipeline gen rm cr fetchResp store req).1 = store' := by
  simp only [runPipeline, statefulStep, hcfg, hok]
  repeat' split
  all_goals rfl

/-- C10, witness: a stateful create commits `{"id":1,"name":"a"}` into
`users`; the following case evaluation is a hard error (500
`CASE_EVAL_ERROR`), yet the store keeps the created record. -/
theorem stateful_mutation_persists_witness :
    (runPipeline {} (fun _ _ => true) crStatefulW (mkError 0 "" "") []
        reqPostW).1 =
      [("users", [[("id", .vnum 1), ("name", .vstr "a")]])] ∧
    (runPipeline {} (fun _ _ => true) crStatefulW (mkError 0 "" "") []
        reqPostW).2.errorCode = some "CASE_EVAL_ERROR" := by
  refine ⟨?_, rfl⟩
  exact stateful_mutation_persists {} (fun _ _ => true) crStatefulW
    (mkError 0 "" "") [] reqPostW (createCfg "users" "id")
    [("users", [[("id", .vnum 1), ("name", .vstr "a")]])]
    { list := [[("id", .vnum 1), ("name", .vstr "a")]],
      created := some [("id", .vnum 1), ("name", .vstr "a")] }
    rfl rfl

/-! ## C9 — reference lookup is key-case-insensitive -/

theorem lookupFold_congr {α : Type} {m1 m2 : List (String × α)}
    (h : keysCaseEquiv m1 m2) (key : String) :
    lookupFold m1 key = lookupFold m2 key := by
  induction h with
  | nil => rfl
  | cons hpq hrest ih =>
      rename_i p q l1 l2
      obtain ⟨hk, hv⟩ := hpq
      cases p with
      | mk k1 v1 =>
        cases q with
        | mk k2 v2 =>
          simp only at hk hv
          subst hv
          simp only [lookupFold]
          have heq : goEqualFold k1 key = goEqualFold k2 key := by
            simp [goEqualFold, hk]
          rw [heq]
          split <;> simp [ih]

theorem scopeLookup_congr {c1 c2 : EContext} (h : CtxCaseEquiv c1 c2)
    (scope key : String) : scopeLookup c1 scope key = scopeLookup c2 scope key := by
  unfold scopeLookup
  rw [lookupFold_congr h.body, lookupFold_congr h.query,
    lookupFold_congr h.headers, lookupFold_congr h.path]

theorem evalResolveValue_congr {c1 c2 : EContext} (h : CtxCaseEquiv c1 c2)
    (path : String) : evalResolveValue path c1 = evalResolveValue path c2 := by
  simp only [evalResolveValue, scopeLookup_congr h]

theorem evalSingleCondition_congr {c1 c2 : EContext} (h : CtxCaseEquiv c1 c2)
    (cond : String) : evalSingleCondition cond c1 = evalSingleCondition cond c2 := by
  simp only [evalSingleCondition, evalResolveValue_congr h]

theorem evalAndChain_congr {c1 c2 : EContext} (h : CtxCaseEquiv c1 c2)
    (parts : List String) : evalAndChain parts c1 = evalAndChain parts c2 := by
  induction parts with
  | nil => rfl
  | cons p rest ih =>
      simp only [evalAndChain, evalSingleCondition_congr h, ih]

theorem evalOrChain_congr {c1 c2 : EContext} (h : CtxCaseEquiv c1 c2)
    (parts : List String) : evalOrChain parts c1 = evalOrChain parts c2 := by
  induction parts with
  | nil => rfl
  | cons p rest ih =>
      simp only [evalOrChain, evalAndChain_congr h, ih]

/-- C9: the condition evaluator cannot distinguish two request contexts
that differ only in the letter-case of their body, query, header or path
key names — reference lookup in every scope compares keys
case-insensitively, so both runs produce the same result (the same truth
value, or the same hard error for a reference that is absent under
case-insensitive comparison; absence in a scope is always a hard
error). -/
theorem case_evaluator_key_case_insensitive (c1 c2 : EContext)
    (h : CtxCaseEquiv c1 c2) :
    (∀ expr : String, EvaluateCondition expr c1 = EvaluateCondition expr c2) ∧
    (∀ (ctx : EContext) (key : String),
      (lookupFold ctx.body key = none →
        scopeLookup ctx "body" key =
          .error ("body key '" ++ key ++ "' not found")) ∧
      (lookupFold ctx.query key = none →
        scopeLookup ctx "query" key =
          .error ("query key '" ++ key ++ "' not found")) ∧
      (lookupFold ctx.headers key = none →
        scopeLookup ctx "headers" key =
          .error ("header key '" ++ key ++ "' not found")) ∧
      (lookupFold ctx.path key = none →
        scopeLookup ctx "path" key =
          .error ("path key '" ++ key ++ "' not found"))) := by
  constructor
  · intro expr
    simp only [EvaluateCondition, evalOrChain_congr h]
  · intro ctx key
    refine ⟨fun hb => ?_, fun hq => ?_, fun hh => ?_, fun hp => ?_⟩
    · simp [scopeLookup, hb]
    · simp [scopeLookup, hq]
    · simp [scopeLookup, hh]
    · simp [scopeLookup, hp]

/-- C9, witness: the contexts `{headers: {"X-Key": "v"}}` and
`{headers: {"x-key": "v"}}` evaluate `request.headers.x-key == 'v'`
identically (both to true), and a key absent from the headers under
case-insensitive comparison is a hard error. -/
theorem case_evaluator_key_case_insensitive_witness :
    EvaluateCondition "request.headers.x-key == 'v'"
        { headers := [("X-Key", "v")] } =
      EvaluateCondition "request.headers.x-key == 'v'"
        { headers := [("x-key", "v")] } ∧
    EvaluateCondition "request.headers.x-key == 'v'"
        { headers := [("X-Key", "v")] } = .ok true ∧
    scopeLookup ({ headers := [("X-Key", "v")] } : EContext) "headers" "nope" =
      .error "header key 'nope' not found" := by
  have h : CtxCaseEquiv { headers := [("X-Key", "v")] }
      { headers := [("x-key", "v")] } :=
    ⟨List.Forall₂.nil, List.Forall₂.nil,
     List.Forall₂.cons ⟨by decide, rfl⟩ List.Forall₂.nil, List.Forall₂.nil⟩
  have hmain := case_evaluator_key_case_insensitive _ _ h
  exact ⟨hmain.1 "request.headers.x-key == 'v'", rfl,
    (hmain.2 { headers := [("X-Key", "v")] } "nope").2.2.1 rfl⟩

end Mockserver
